import Mathlib

/-!
# Verification of the KIKI AI infra agent's sanitization and staged execution pipeline

This development gives a shallow embedding, in Lean 4, of the core logic of the
`agentd.py` / `Containers/agentd.py` / `Containers/runner_agentd.py` /
`Containers/kiki-web/kiki_core.py` sources: the markdown fence strippers, the
YAML playbook sanitizer, inventory construction, and the staged (syntax /
apply / idempotency) execution engine, and proves or refutes the specified
properties about them.

Python strings are modelled as Lean `String` / `List Char`; the external
filesystem, the external `ansible-playbook` process and the upstream LLM are
modelled as explicit oracle parameters (a function from command to return
code, a boolean file-existence predicate, an optional completion text).  The
external YAML loader (`yaml.safe_load`) is modelled abstractly as a parameter
`parse : String → Option YVal` in the universally quantified theorems, and
concretely by the executable block-YAML parser `yamlParse` (covering the
block-sequence / block-mapping subset relevant to the inputs appearing in this
file) in witnesses and counterexamples.
-/

/-! ## Python text primitives -/

/-- The characters Python's `str.strip()` and the regex class `\s` treat as
whitespace (ASCII range): space, tab, newline, carriage return, vertical tab,
form feed. -/
def isPySpace (c : Char) : Bool :=
  c = ' ' || c = '\t' || c = '\n' || c = '\r' || c = '\x0b' || c = '\x0c'

/-- Embeds `str.lstrip()` on a character list. -/
def lstripL (l : List Char) : List Char := l.dropWhile isPySpace

/-- Embeds `str.rstrip()` on a character list. -/
def rstripL (l : List Char) : List Char := (l.reverse.dropWhile isPySpace).reverse

/-- Python `str.strip()` on a character list. -/
def pyStripL (l : List Char) : List Char := rstripL (lstripL l)

/-- Python `str.strip()`. -/
def pyStrip (s : String) : String := ⟨pyStripL s.data⟩

/-! ## Substring matching (modelling Python `in`, `startswith`, and regex literals) -/

/-- Exact character comparison. -/
def charEqB (p c : Char) : Bool := p = c

/-- Case-insensitive character comparison against a lowercase pattern
character (modelling the `(?i)` regex flag; ASCII case folding). -/
def charEqCI (p c : Char) : Bool := p = c.toLower

/-- Match `pat` (under comparison `eqc`) as a prefix of `l`, returning the
remainder on success. -/
def matchPrefixRest (eqc : Char → Char → Bool) : List Char → List Char → Option (List Char)
  | [], l => some l
  | _ :: _, [] => none
  | p :: ps, c :: cs => if eqc p c then matchPrefixRest eqc ps cs else none

/-- Embeds `pat` is a prefix of `l` under comparison `eqc`. -/
def prefixMatch (eqc : Char → Char → Bool) (pat l : List Char) : Bool :=
  (matchPrefixRest eqc pat l).isSome

/-- Embeds `pat` occurs (under comparison `eqc`) somewhere in `l`
(Python `pat in s` when `eqc = charEqB`). -/
def containsPat (eqc : Char → Char → Bool) (pat : List Char) : List Char → Bool
  | [] => pat.isEmpty
  | c :: cs => prefixMatch eqc pat (c :: cs) || containsPat eqc pat cs

/-- Python `sub in s` on strings. -/
def containsSub (pat s : String) : Bool := containsPat charEqB pat.data s.data

/-! ## Python `str.splitlines` and line joining -/

/-- Worker for `splitlines`: `cur` holds the current line reversed.  Line
breaks recognised: `\r\n`, `\r`, `\n` (the inputs in this development contain
only `\n`). -/
def pySplitGo (cur : List Char) : List Char → List (List Char)
  | [] => [cur.reverse]
  | '\r' :: '\n' :: rest => cur.reverse :: (if rest.isEmpty then [] else pySplitGo [] rest)
  | '\n' :: rest => cur.reverse :: (if rest.isEmpty then [] else pySplitGo [] rest)
  | '\r' :: rest => cur.reverse :: (if rest.isEmpty then [] else pySplitGo [] rest)
  | c :: rest => pySplitGo (c :: cur) rest

/-- Python `str.splitlines()` (no trailing empty line for a trailing newline;
empty string gives `[]`). -/
def pySplitlinesL (l : List Char) : List (List Char) :=
  if l.isEmpty then [] else pySplitGo [] l

/-- Embeds `"\n".join(lines)` on character lists. -/
def joinNL (lines : List (List Char)) : List Char :=
  (lines.intersperse ['\n']).flatten

/-- First suffix of `l` at which `pat` occurs: models Python
`s[s.index(pat):]` (callers guard on `pat in s`). -/
def dropToPat (pat : List Char) : List Char → List Char
  | [] => []
  | c :: cs => if prefixMatch charEqB pat (c :: cs) then c :: cs else dropToPat pat cs

/-! ## YAML values and the playbook validity check

The pipeline delegates YAML parsing to the external `yaml.safe_load`
(explicitly an external collaborator in the design).  Universal theorems
below are stated over an arbitrary loader `parse : String → Option YVal`
(`none` models a parser exception); witnesses and counterexamples use the
executable parser `yamlParse` defined afterwards, which implements the
block-sequence / block-mapping / plain-scalar subset of YAML in the way
`yaml.safe_load` treats it, which covers every document appearing in this
file. -/

/-- Result of loading a YAML document (image of `yaml.safe_load`). -/
inductive YVal where
  | nullV : YVal
  | boolV : Bool → YVal
  | intV : Int → YVal
  | strV : String → YVal
  | listV : List YVal → YVal
  | mapV : List (String × YVal) → YVal

/-- Embeds `isinstance(x, dict)`. -/
def YVal.isDict : YVal → Bool
  | .mapV _ => true
  | _ => false

/-- Embeds `any(k in play for k in ("hosts", "tasks", "roles", "name"))`. -/
def YVal.hasPlayAnchorKey : YVal → Bool
  | .mapV m => m.any (fun kv => kv.1 = "hosts" || kv.1 = "tasks" || kv.1 = "roles" || kv.1 = "name")
  | _ => false

/-- The playbook validity check `_is_valid_playbook` of `agentd.py`
(lines 341–359), identical to `_valid` in `Containers/agentd.py` and
`_is_valid_pb` in `Containers/runner_agentd.py`: the loaded document must be
a non-empty list, all elements dicts, each containing at least one of
`hosts` / `tasks` / `roles` / `name`.  (The `_ALLOWED_TOP_KEYS` loop in the
source inspects further keys but its body is `pass`, so it has no effect.) -/
def is_valid_playbook (parse : String → Option YVal) (s : String) : Bool :=
  match parse s with
  | none => false
  | some (.listV xs) => !xs.isEmpty && xs.all YVal.isDict && xs.all YVal.hasPlayAnchorKey
  | some _ => false

/-- Length of the top-level sequence of a loaded document (0 when the root
is not a sequence); used to tell two parses apart. -/
def topSeqLen : Option YVal → Nat
  | some (.listV xs) => xs.length
  | _ => 0

/-! ## A concrete block-YAML parser (executable model of `yaml.safe_load`) -/

/-- A physical line, split into its leading-space indent and its
right-stripped content. -/
structure YLine where
  indent : Nat
  content : List Char
  deriving DecidableEq

def toYLine (l : List Char) : YLine :=
  let ind := (l.takeWhile (fun c => c = ' ')).length
  ⟨ind, rstripL (l.drop ind)⟩

/-- A block-sequence entry line: `-` alone or `- ...`. -/
def isDashLine (content : List Char) : Bool :=
  match content with
  | '-' :: [] => true
  | '-' :: ' ' :: _ => true
  | _ => false

/-- Split `key: value` at the first `:` that is followed by a space or ends
the line. -/
def splitKeyGo (acc : List Char) : List Char → Option (List Char × List Char)
  | [] => none
  | ':' :: rest =>
    match rest with
    | [] => some (acc.reverse, [])
    | ' ' :: rest2 => some (acc.reverse, rest2)
    | _ => splitKeyGo (':' :: acc) rest
  | c :: rest => splitKeyGo (c :: acc) rest

def splitKey (content : List Char) : Option (List Char × List Char) :=
  match splitKeyGo [] content with
  | some (k, v) => if (pyStripL k).isEmpty then none else some (pyStripL k, pyStripL v)
  | none => none

/-- Plain scalar tokens the way `yaml.safe_load` resolves them (null /
boolean / integer / empty flow list / string); unsupported flow collections
give `none`. -/
def parseScalarToken (t : List Char) : Option YVal :=
  if t.isEmpty then some .nullV
  else if t = "~".data || t = "null".data then some .nullV
  else if t = "true".data || t = "True".data then some (.boolV true)
  else if t = "false".data || t = "False".data then some (.boolV false)
  else if t = "[]".data then some (.listV [])
  else if t.head? = some '[' then none
  else if t.all Char.isDigit then
    some (.intV (t.foldl (fun n c => n * 10 + (c.toNat - 48)) 0))
  else some (.strV ⟨t⟩)

mutual

/-- Parse consecutive `- ...` entries at indent `ind`. -/
def parseSeq (fuel : Nat) (ind : Nat) : List YLine → Option (List YVal)
  | [] => some []
  | ln :: rest =>
    match fuel with
    | 0 => none
    | fuel + 1 =>
      if ln.indent = ind && isDashLine ln.content then
        let split := rest.span (fun l2 => ind < l2.indent)
        match parseItem fuel ind (pyStripL (ln.content.drop 1)) split.1 with
        | none => none
        | some item =>
          match parseSeq fuel ind split.2 with
          | none => none
          | some items => some (item :: items)
      else none

/-- Parse one sequence entry: its inline remainder after `-` plus the
following deeper-indented lines. -/
def parseItem (fuel : Nat) (ind : Nat) (inline : List Char) (children : List YLine) :
    Option YVal :=
  match fuel with
  | 0 => none
  | fuel + 1 =>
    if inline.isEmpty then parseBlock fuel children
    else
      match splitKey inline with
      | some _ =>
        match parseMap fuel (ind + 2) (⟨ind + 2, inline⟩ :: children) with
        | none => none
        | some entries => some (.mapV entries)
      | none =>
        if children.isEmpty then parseScalarToken inline else none

/-- Parse consecutive `key: value` entries at indent `ind`. -/
def parseMap (fuel : Nat) (ind : Nat) : List YLine → Option (List (String × YVal))
  | [] => some []
  | ln :: rest =>
    match fuel with
    | 0 => none
    | fuel + 1 =>
      if ln.indent = ind && !isDashLine ln.content then
        match splitKey ln.content with
        | none => none
        | some (k, v) =>
          let split := rest.span (fun l2 => ind < l2.indent)
          let value? : Option YVal :=
            if v.isEmpty then
              if split.1.isEmpty then some .nullV else parseBlock fuel split.1
            else
              if split.1.isEmpty then parseScalarToken v else none
          match value? with
          | none => none
          | some value =>
            match parseMap fuel ind split.2 with
            | none => none
            | some entries => some ((⟨k⟩, value) :: entries)
      else none

/-- Parse a block of lines as a sequence, a mapping, or a folded plain
scalar, at the indent of the first line. -/
def parseBlock (fuel : Nat) (lines : List YLine) : Option YVal :=
  match fuel with
  | 0 => none
  | fuel + 1 =>
    match lines with
    | [] => some .nullV
    | ln :: _ =>
      if isDashLine ln.content then
        match parseSeq fuel ln.indent lines with
        | none => none
        | some items => some (.listV items)
      else if (splitKey ln.content).isSome then
        match parseMap fuel ln.indent lines with
        | none => none
        | some entries => some (.mapV entries)
      else if lines.all (fun l2 => !isDashLine l2.content && (splitKey l2.content).isNone) then
        some (.strV ⟨((lines.map (fun l2 => l2.content)).intersperse [' ']).flatten⟩)
      else none

end

/-- Executable model of `yaml.safe_load` on block-structured documents:
split into lines, drop blank and full-line-comment lines, honour a single
leading `---` document marker (a second marker means a multi-document
stream, on which `safe_load` raises), then block-parse. -/
def yamlParse (s : String) : Option YVal :=
  let lines := (pySplitlinesL s.data).map toYLine
  let eff := lines.filter (fun ln => !ln.content.isEmpty && ln.content.head? ≠ some '#')
  let eff2 :=
    match eff with
    | ln :: rest => if ln.content = "---".data then rest else eff
    | [] => []
  if eff2.any (fun ln => ln.content = "---".data) then none
  else
    match eff2 with
    | [] => some YVal.nullV
    | _ => parseBlock (4 * eff2.length + 8) eff2

/-! ## Commentary line patterns (the sanitizers' `drop_patterns` regexes)

Each regex of the `drop_patterns` lists is hand-compiled to a decidable
predicate on a single line.  `\s` is `isPySpace`, `\w` is ASCII
alphanumeric/underscore (all inputs in this development are ASCII), `(?i)`
is ASCII case folding. -/

/-- Regex `\w` (ASCII). -/
def isWordChar (c : Char) : Bool := c.isAlphanum || c = '_'

/-- Embeds `\b` at a position whose left neighbour is a word character: the next
character must not be a word character (or the string ends). -/
def wordBoundary (l : List Char) : Bool :=
  match l with
  | [] => true
  | c :: _ => !isWordChar c

/-- Regex `(?i)^\s*<pat>\b` for a lowercase literal `pat` ending in a word
character. -/
def ciWordAt (pat : String) (l : List Char) : Bool :=
  match matchPrefixRest charEqCI pat.data (lstripL l) with
  | some r => wordBoundary r
  | none => false

/-- The pattern characters occur in order, with arbitrary gaps (compiling
`.*x.*y`-style chains to an existence check). -/
def seqIn : List Char → List Char → Bool
  | [], _ => true
  | _ :: _, [] => false
  | p :: ps, c :: cs => if p = c then seqIn ps cs else seqIn (p :: ps) cs

/-- Regex `(?i)^\s*please replace\b` -/
def patPleaseReplace (l : List Char) : Bool := ciWordAt "please replace" l

/-- Regex `(?i)^\s*this playbook will\b` -/
def patThisPlaybookWill (l : List Char) : Bool := ciWordAt "this playbook will" l

/-- Regex `(?i)^\s*replace\b` (Containers variants) -/
def patReplace (l : List Char) : Bool := ciWordAt "replace" l

/-- Regex `(?i)^\s*remember\b` (Containers variants) -/
def patRemember (l : List Char) : Bool := ciWordAt "remember" l

/-- Regex `(?i)^\s*make sure\b` (Containers variants) -/
def patMakeSure (l : List Char) : Bool := ciWordAt "make sure" l

/-- Regex `(?i)^\s*you should\b` (Containers variants) -/
def patYouShould (l : List Char) : Bool := ciWordAt "you should" l

/-- Regex `(?i)^\s*for example\b` (Containers variants) -/
def patForExample (l : List Char) : Bool := ciWordAt "for example" l

/-- Regex `(?i)^\s*note\b[:：]` (`agentd.py`): the boundary after `note` is
guaranteed by the following colon. -/
def patNoteColonA (l : List Char) : Bool :=
  match matchPrefixRest charEqCI "note".data (lstripL l) with
  | some r => r.head? = some ':' || r.head? = some '：'
  | none => false

/-- Regex `(?i)^\s*note\b[:：]?` (Containers variants): the colon is optional, so
this is just the word `note` at the start. -/
def patNoteC (l : List Char) : Bool := ciWordAt "note" l

/-- Regex `(?i)^\s*instructions?:` -/
def patInstructions (l : List Char) : Bool :=
  match matchPrefixRest charEqCI "instruction".data (lstripL l) with
  | some r => prefixMatch charEqCI ":".data r || prefixMatch charEqCI "s:".data r
  | none => false

/-- Regex `^\s*[-*]\s+\w+.*:.*\(.*\)` -/
def patBulletHint (l : List Char) : Bool :=
  match lstripL l with
  | c :: rest =>
    (c = '-' || c = '*') &&
    (match rest with
     | d :: _ => isPySpace d
     | [] => false) &&
    (match rest.dropWhile isPySpace with
     | w :: tail => isWordChar w && seqIn [':', '(', ')'] tail
     | [] => false)
  | [] => false

/-- Regex `^\s*\d+\.\s+.+` -/
def patNumbered (l : List Char) : Bool :=
  let r := lstripL l
  !(r.takeWhile Char.isDigit).isEmpty &&
  (match r.dropWhile Char.isDigit with
   | '.' :: c :: _ :: _ => isPySpace c
   | _ => false)

/-- Regex `^\s*#+\s+.+` -/
def patHeader (l : List Char) : Bool :=
  let r := lstripL l
  !(r.takeWhile (fun c => c = '#')).isEmpty &&
  (match r.dropWhile (fun c => c = '#') with
   | c :: _ :: _ => isPySpace c
   | _ => false)

/-- Regex `^\s*>\s+.+` -/
def patQuote (l : List Char) : Bool :=
  match lstripL l with
  | '>' :: c :: _ :: _ => isPySpace c
  | _ => false

/-- Regex `^\s*<!--.*?-->\s*$` -/
def patHtmlComment (l : List Char) : Bool :=
  match matchPrefixRest charEqB "<!--".data (lstripL l) with
  | some r => "-->".data.isSuffixOf (rstripL r)
  | none => false

/-- Regex ``^\s*`{3,}.*$`` -/
def patFence3 (l : List Char) : Bool :=
  2 < (List.takeWhile (fun c => c = '`') (lstripL l)).length

/-- The `drop_patterns` list of `agentd.py:sanitize_yaml` (lines 321–332). -/
def dropLineA (l : List Char) : Bool :=
  patPleaseReplace l || patThisPlaybookWill l || patNoteColonA l || patInstructions l ||
  patBulletHint l || patNumbered l || patHeader l || patQuote l ||
  patHtmlComment l || patFence3 l

/-- The extended `drop_patterns` list of `Containers/agentd.py:sanitize_yaml`
(lines 146–152), also used by `Containers/runner_agentd.py` (lines 332–348). -/
def dropLineC (l : List Char) : Bool :=
  patPleaseReplace l || patReplace l || patNoteC l || patRemember l ||
  patMakeSure l || patYouShould l || patForExample l || patThisPlaybookWill l ||
  patInstructions l || patBulletHint l || patNumbered l || patHeader l ||
  patQuote l || patHtmlComment l || patFence3 l

/-! ## The strict keep filter (sanitizer step 4, identical in all variants) -/

/-- Regex `^(-\s+name:)|^(hosts:)|^(become:)|…|^(vars_files:)` applied to the
stripped line. -/
def keyLineRegex (s : List Char) : Bool :=
  (match s with
   | '-' :: r =>
     (match r with
      | d :: _ => isPySpace d
      | [] => false) &&
     prefixMatch charEqB "name:".data (r.dropWhile isPySpace)
   | _ => false) ||
  prefixMatch charEqB "hosts:".data s || prefixMatch charEqB "become:".data s ||
  prefixMatch charEqB "vars:".data s || prefixMatch charEqB "tasks:".data s ||
  prefixMatch charEqB "handlers:".data s || prefixMatch charEqB "roles:".data s ||
  prefixMatch charEqB "gather_facts:".data s || prefixMatch charEqB "pre_tasks:".data s ||
  prefixMatch charEqB "post_tasks:".data s || prefixMatch charEqB "vars_files:".data s

/-- One line of the conservative filter (sanitizer step 4): keep blank
lines, drop `#`/`...` lines, keep recognised play-key lines, keep indented
lines, drop everything else. -/
def keepStrict (ln : List Char) : Bool :=
  let s := pyStripL ln
  if s.isEmpty then true
  else if prefixMatch charEqB "#".data s || prefixMatch charEqB "...".data s then false
  else if keyLineRegex s then true
  else if prefixMatch charEqB "  ".data ln || prefixMatch charEqB "\t".data ln then true
  else false

/-! ## Regex substitution / findall scanners

Each `re.sub` / `re.findall` call of the fence-handling code is compiled to
a left-to-right scanner over the character list.  The scanners take a fuel
argument (instantiated with more than the input length; the fuel-exhausted
branch returns the input unchanged and is unreachable at the chosen fuel).
Greedy `\s*` runs followed by a literal `\n` consume up to the last newline
of the maximal whitespace run, reproducing the backtracking behaviour of
the Python engine. -/

/-- The characters of a (whitespace) run that follow its last `'\n'`;
`none` when the run contains no newline. -/
def afterLastNL (ws : List Char) : Option (List Char) :=
  let b := (ws.reverse.takeWhile (fun c => c ≠ '\n')).reverse
  if b.length = ws.length then none else some b

/-- Class `[a-zA-Z0-9_-]` (language tag in `agentd.py`'s step-0 fence regex). -/
def isLangChar1 (c : Char) : Bool := c.isAlphanum || c = '_' || c = '-'

/-- Class `[a-zA-Z0-9._-]` (language tag in the other fence regexes). -/
def isLangChar2 (c : Char) : Bool := c.isAlphanum || c = '.' || c = '_' || c = '-'

/-- Embeds ``re.sub(r"^```[a-zA-Z0-9_-]*\s*", "", text, flags=re.MULTILINE)``
(`agentd.py:sanitize_yaml` step 0, first substitution).  `atLS` tracks
whether the scan position is a line start. -/
def sub1Go (fuel : Nat) (atLS : Bool) (l : List Char) : List Char :=
  match fuel with
  | 0 => l
  | fuel + 1 =>
    match l with
    | [] => []
    | c :: rest =>
      if atLS && prefixMatch charEqB "```".data l then
        let r1 := (l.drop 3).dropWhile isLangChar1
        let ws := r1.takeWhile isPySpace
        sub1Go fuel (ws.getLast? = some '\n') (r1.dropWhile isPySpace)
      else
        c :: sub1Go fuel (c = '\n') rest

def sub1 (l : List Char) : List Char := sub1Go (l.length + 1) true l

/-- Embeds ``re.sub(r"\s*```$", "", text, flags=re.MULTILINE)``
(`agentd.py:sanitize_yaml` step 0, second substitution): a whitespace run
directly followed by a fence that ends its line. -/
def sub2Go (fuel : Nat) (l : List Char) : List Char :=
  match fuel with
  | 0 => l
  | fuel + 1 =>
    match l with
    | [] => []
    | c :: rest =>
      let r := l.dropWhile isPySpace
      if prefixMatch charEqB "```".data r &&
         ((l.drop ((l.takeWhile isPySpace).length + 3)).isEmpty ||
          (l.drop ((l.takeWhile isPySpace).length + 3)).head? = some '\n') then
        sub2Go fuel (l.drop ((l.takeWhile isPySpace).length + 3))
      else
        c :: sub2Go fuel rest

def sub2 (l : List Char) : List Char := sub2Go (l.length + 1) l

/-- Embeds ``re.sub(r"```[a-zA-Z0-9._-]*\s*", "", s)`` (fallback fence removal in
`runner_agentd.py:strip_fences`; unanchored). -/
def subFence2Go (fuel : Nat) (l : List Char) : List Char :=
  match fuel with
  | 0 => l
  | fuel + 1 =>
    match l with
    | [] => []
    | c :: rest =>
      if prefixMatch charEqB "```".data l then
        subFence2Go fuel (((l.drop 3).dropWhile isLangChar2).dropWhile isPySpace)
      else
        c :: subFence2Go fuel rest

def subFence2 (l : List Char) : List Char := subFence2Go (l.length + 1) l

/-- Python `str.replace(pat, repl)` (left-to-right, non-overlapping;
`pat` non-empty). -/
def replaceAllGo (fuel : Nat) (pat repl : List Char) (l : List Char) : List Char :=
  match fuel with
  | 0 => l
  | fuel + 1 =>
    match l with
    | [] => []
    | c :: rest =>
      if prefixMatch charEqB pat l then
        repl ++ replaceAllGo fuel pat repl (l.drop pat.length)
      else
        c :: replaceAllGo fuel pat repl rest

def replaceAll (pat repl l : List Char) : List Char :=
  replaceAllGo (l.length + 1) pat repl l

/-- Embeds ``re.sub(r"(?m)^\s*(```|~~~).*$", "", s)``
(`strip_fences_strong`): at a line start, a whitespace run directly
followed by a fence removes everything up to that line's end. -/
def lineSubGo (fuel : Nat) (atLS : Bool) (l : List Char) : List Char :=
  match fuel with
  | 0 => l
  | fuel + 1 =>
    match l with
    | [] => []
    | c :: rest =>
      if atLS &&
         (prefixMatch charEqB "```".data (l.dropWhile isPySpace) ||
          prefixMatch charEqB "~~~".data (l.dropWhile isPySpace)) then
        lineSubGo fuel false ((l.dropWhile isPySpace).dropWhile (fun c2 => c2 ≠ '\n'))
      else
        c :: lineSubGo fuel (c = '\n') rest

def lineSubFence (l : List Char) : List Char := lineSubGo (l.length + 1) true l

/-- Embeds ``re.sub(r"(?im)^\s*yaml\s*$", "", s)`` (`strip_fences_strong`): a
standalone `yaml` language-tag line (the leading and trailing `\s*` may
greedily span adjacent blank lines). -/
def yamlSubGo (fuel : Nat) (atLS : Bool) (l : List Char) : List Char :=
  match fuel with
  | 0 => l
  | fuel + 1 =>
    match l with
    | [] => []
    | c :: rest =>
      if atLS then
        match matchPrefixRest charEqCI "yaml".data (l.dropWhile isPySpace) with
        | some r2 =>
          if (r2.dropWhile isPySpace).isEmpty then
            []
          else
            match afterLastNL (r2.takeWhile isPySpace) with
            | some b => yamlSubGo fuel false ('\n' :: (b ++ r2.dropWhile isPySpace))
            | none => c :: yamlSubGo fuel (c = '\n') rest
        | none => c :: yamlSubGo fuel (c = '\n') rest
      else
        c :: yamlSubGo fuel (c = '\n') rest

def yamlSub (l : List Char) : List Char := yamlSubGo (l.length + 1) true l

/-- Split `l` at the first occurrence of `pat`: `(before, after-the-match)`. -/
def splitAtSub (pat : List Char) : List Char → Option (List Char × List Char)
  | [] => none
  | c :: rest =>
    if prefixMatch charEqB pat (c :: rest) then some ([], (c :: rest).drop pat.length)
    else
      match splitAtSub pat rest with
      | some (b, a) => some (c :: b, a)
      | none => none

/-- Header of the `FENCE_BLOCK` regex
(``` ```(?:[a-zA-Z0-9._-]+)?\s*\n ``` in `runner_agentd.py:strip_fences`):
after the fence and optional language tag, a greedy whitespace run whose
last newline ends the header; returns the content start. -/
def fenceBlockHeader (l : List Char) : Option (List Char) :=
  if prefixMatch charEqB "```".data l then
    let r1 := (l.drop 3).dropWhile isLangChar2
    match afterLastNL (r1.takeWhile isPySpace) with
    | some b => some (b ++ r1.dropWhile isPySpace)
    | none => none
  else none

/-- Embeds `FENCE_BLOCK.findall`: leftmost, non-overlapping; the lazy content group
ends at the first `\n``` `. -/
def fenceBlockGo (fuel : Nat) (l : List Char) : List (List Char) :=
  match fuel with
  | 0 => []
  | fuel + 1 =>
    match l with
    | [] => []
    | _ :: rest =>
      match fenceBlockHeader l with
      | some contentStart =>
        match splitAtSub "\n```".data contentStart with
        | some (content, after) => content :: fenceBlockGo fuel after
        | none => fenceBlockGo fuel rest
      | none => fenceBlockGo fuel rest

def fenceBlockFindall (l : List Char) : List (List Char) :=
  fenceBlockGo (l.length + 1) l

/-- Whether a line-start position opens a `FENCE_ANY` block
(`^\s*(```|~~~)…` in `strip_fences_strong`): after a whitespace run, a
triple-backtick or triple-tilde fence. -/
def fenceAnyOpensAt (l : List Char) : Bool :=
  prefixMatch charEqB "```".data (l.dropWhile isPySpace) ||
  prefixMatch charEqB "~~~".data (l.dropWhile isPySpace)

/-- Closing condition of `FENCE_ANY` after a newline: a whitespace run, a
fence, then only whitespace up to the end of that line. -/
def fenceAnyCloseAt (l : List Char) : Bool :=
  (prefixMatch charEqB "```".data (l.dropWhile isPySpace) ||
   prefixMatch charEqB "~~~".data (l.dropWhile isPySpace)) &&
  (let t := (l.dropWhile isPySpace).drop 3
   (t.dropWhile isPySpace).isEmpty || '\n' ∈ t.takeWhile isPySpace)

/-- Find the close of a `FENCE_ANY` block: first `\n` whose following line
is a pure closing fence; returns `(content, rest-after)`. -/
def fenceAnyFindClose (fuel : Nat) (l : List Char) : Option (List Char × List Char) :=
  match fuel with
  | 0 => none
  | fuel + 1 =>
    match l with
    | [] => none
    | c :: rest =>
      if c = '\n' && fenceAnyCloseAt rest then
        some ([], (rest.dropWhile isPySpace).drop 3)
      else
        match fenceAnyFindClose fuel rest with
        | some (b, a) => some (c :: b, a)
        | none => none

/-- Embeds `FENCE_ANY.findall` (capture group 2, the block contents), scanning
line starts. -/
def fenceAnyGo (fuel : Nat) (atLS : Bool) (l : List Char) : List (List Char) :=
  match fuel with
  | 0 => []
  | fuel + 1 =>
    match l with
    | [] => []
    | c :: rest =>
      if atLS && fenceAnyOpensAt l then
        let afterFence := ((l.dropWhile isPySpace).drop 3).dropWhile
          (fun c2 => isPySpace c2 || isLangChar2 c2)
        let headerWS := ((l.dropWhile isPySpace).drop 3).takeWhile
          (fun c2 => isPySpace c2 || isLangChar2 c2)
        match afterLastNL headerWS with
        | some b =>
          match fenceAnyFindClose (l.length + 1) (b ++ afterFence) with
          | some (content, after) => content :: fenceAnyGo fuel false after
          | none => fenceAnyGo fuel (c = '\n') rest
        | none => fenceAnyGo fuel (c = '\n') rest
      else
        fenceAnyGo fuel (c = '\n') rest

def fenceAnyFindall (l : List Char) : List (List Char) :=
  fenceAnyGo (l.length + 1) true l

/-! ## The fence strippers -/

/-- Embeds `strip_fences` of `Containers/runner_agentd.py` (lines 87–101): early
return when no fence marker is present; otherwise prefer the contents of
fenced blocks, joined by blank lines; otherwise remove fence markers. -/
def strip_fences (text : String) : String :=
  let s := pyStripL text.data
  if containsPat charEqB "```".data s = false then ⟨s⟩
  else
    let blocks := fenceBlockFindall s
    if !blocks.isEmpty then
      ⟨(((blocks.map pyStripL).filter (fun b => !b.isEmpty)).intersperse "\n\n".data).flatten⟩
    else
      ⟨pyStripL (replaceAll "```".data [] (subFence2 s))⟩

/-- Embeds `strip_markdown_fences` of `Containers/kiki-web/kiki_core.py`
(lines 52–61): if the stripped text starts with a fence, drop the first
line and a trailing fence line. -/
def strip_markdown_fences (text : String) : String :=
  let t := pyStripL text.data
  if prefixMatch charEqB "```".data t then
    let lines := pySplitlinesL t
    let lines1 := if lines.isEmpty then lines else lines.tail
    let lines2 :=
      match lines1.getLast? with
      | some last =>
        if prefixMatch charEqB "```".data (pyStripL last) then lines1.dropLast else lines1
      | none => lines1
    ⟨pyStripL (joinNL lines2)⟩
  else ⟨t⟩

/-- Embeds `strip_fences_strong` of `Containers/agentd.py` (lines 68–77): CRLF
normalisation, fenced-block extraction, fence-line removal, fence-marker
removal, standalone `yaml` tag-line removal, final strip. -/
def strip_fences_strong (text : String) : String :=
  let s0 := replaceAll "\r\n".data "\n".data text.data
  let blocks := fenceAnyFindall s0
  let s1 :=
    if !blocks.isEmpty then
      (((blocks.map pyStripL).filter (fun b => !b.isEmpty)).intersperse "\n\n".data).flatten
    else s0
  let s2 := lineSubFence s1
  let s3 := replaceAll "~~~".data [] (replaceAll "```".data [] s2)
  let s4 := yamlSub s3
  ⟨pyStripL s4⟩

/-! ## The playbook sanitizers -/

/-- At a line start: the regex `^\s*-\s*name\s*:` of `agentd.py` step 1. -/
def nameDashAt (l : List Char) : Bool :=
  match l.dropWhile isPySpace with
  | '-' :: r =>
    (match matchPrefixRest charEqB "name".data (r.dropWhile isPySpace) with
     | some r2 => (r2.dropWhile isPySpace).head? = some ':'
     | none => false)
  | _ => false

/-- Embeds `re.search(r"(?m)^\s*-\s*name\s*:", text)`: the suffix from the first
line start opening a `- name:` entry. -/
def searchNameDash (atLS : Bool) : List Char → Option (List Char)
  | [] => none
  | c :: rest =>
    if atLS && nameDashAt (c :: rest) then some (c :: rest)
    else searchNameDash (c = '\n') rest

/-- Step 1 of `agentd.py:sanitize_yaml` (lines 311–318): truncate to the
first `---`, else to the first `- name:` line. -/
def step1A (l : List Char) : List Char :=
  if containsPat charEqB "---".data l then dropToPat "---".data l
  else
    match searchNameDash true l with
    | some suf => suf
    | none => l

/-- The shared shape of sanitizer line filters:
`"\n".join(kept lines).strip() + "\n"`. -/
def lineFilterOut (keep : List Char → Bool) (t : List Char) : List Char :=
  pyStripL (joinNL ((pySplitlinesL t).filter keep)) ++ ['\n']

/-- Step 2 (commentary-line drop) over a step-1 result. -/
def dropFilterA (t : List Char) : List Char := lineFilterOut (fun ln => !dropLineA ln) t

/-- The Containers step-2 filter. -/
def dropFilterC (t : List Char) : List Char := lineFilterOut (fun ln => !dropLineC ln) t

/-- Step 4 (conservative keep filter), identical in all sanitizer variants. -/
def strictFilterOut (t : List Char) : List Char := lineFilterOut keepStrict t

/-- Embeds `re.split(r"\n\s*\n", text2)` (sanitizer step 5). -/
def chunkSplitGo (fuel : Nat) (cur : List Char) (l : List Char) : List (List Char) :=
  match fuel with
  | 0 => [cur.reverse ++ l]
  | fuel + 1 =>
    match l with
    | [] => [cur.reverse]
    | c :: rest =>
      if c = '\n' then
        match afterLastNL (rest.takeWhile isPySpace) with
        | some b => cur.reverse :: chunkSplitGo fuel [] (b ++ rest.dropWhile isPySpace)
        | none => chunkSplitGo fuel (c :: cur) rest
      else chunkSplitGo fuel (c :: cur) rest

def chunkSplit (l : List Char) : List (List Char) := chunkSplitGo (l.length + 1) [] l

/-- Step 5: the first blank-line-separated chunk that validates. -/
def firstValidChunk (parse : String → Option YVal) : List (List Char) → Option (List Char)
  | [] => none
  | ch :: rest =>
    if is_valid_playbook parse ⟨ch ++ ['\n']⟩ then some ch
    else firstValidChunk parse rest

/-- Stage 0+1+2 of `agentd.py:sanitize_yaml`: fence substitutions on the
stripped input, truncation, commentary-line drop. -/
def sanA_stage2 (text : String) : List Char :=
  dropFilterA (step1A (sub2 (sub1 (pyStripL text.data))))

/-- Embeds `sanitize_yaml` of `agentd.py` (lines 298–394), over an arbitrary YAML
loader `parse`.  Identical logic (after its extra pre-stripping) appears in
`Containers/runner_agentd.py` (lines 306–399). -/
def sanitize_yaml_A (parse : String → Option YVal) (text : String) : String :=
  let t2 := sanA_stage2 text
  if is_valid_playbook parse ⟨t2⟩ then ⟨t2⟩
  else
    let t4 := strictFilterOut t2
    if is_valid_playbook parse ⟨t4⟩ then ⟨t4⟩
    else
      match firstValidChunk parse (chunkSplit t4) with
      | some ch => ⟨pyStripL ch ++ ['\n']⟩
      | none => ⟨t2⟩

/-- Stage 2 of `Containers/agentd.py:sanitize_yaml`: strong fence strip,
CRLF normalisation and strip, `---` truncation, commentary-line drop. -/
def sanC_stage2 (text : String) : List Char :=
  let s2 := pyStripL (replaceAll "\r\n".data "\n".data (strip_fences_strong text).data)
  let s3 := if containsPat charEqB "---".data s2 then dropToPat "---".data s2 else s2
  dropFilterC (pyStripL s3 ++ ['\n'])

/-- Embeds `sanitize_yaml` of `Containers/agentd.py` (lines 133–186): no chunk
stage; on validation failure it returns the strict-filter output `text2`
when non-empty (`return text2 or text`), else the stage-2 text. -/
def sanitize_yaml_C (parse : String → Option YVal) (text : String) : String :=
  if text.isEmpty then ""
  else
    let t2 := sanC_stage2 text
    if is_valid_playbook parse ⟨t2⟩ then ⟨t2⟩
    else
      let t4 := strictFilterOut t2
      if !t4.isEmpty then ⟨t4⟩ else ⟨t2⟩

/-! ## The staged execution engine

`run_task` (subprocess engine branch) and `runner_stream` are embedded as
pure functions over oracles for the external world: `exec` maps an
`ansible-playbook` argument vector to its return code, `exists?`/`resolve`
model `pathlib.Path.exists`/`resolve`, `wsExists`/`ymls` model the workspace
directory and its playbook glob.  Each embedding also returns the list of
external playbook invocations it performed, in order. -/

inductive VerifyLevel where
  | vNone
  | vSyn
  | vAll
  deriving DecidableEq

/-- Python truthiness of an optional string (`None` and `""` are falsy). -/
def truthyOpt : Option String → Bool
  | none => false
  | some s => !s.isEmpty

/-- Embeds `run_dir / "bundle.zip"`, the archive produced by `zip_result`
(`agentd.py` lines 101–107). -/
def zipPath (runDir : String) : String := runDir ++ "/bundle.zip"

/-- The per-run request fields the engine consumes. -/
structure RunReqE where
  verify : VerifyLevel
  limit : Option String
  tags : Option String
  /-- truthiness of `req.extra_vars` (`None` and `{}` are falsy). -/
  extraVars : Bool
  deriving DecidableEq

/-- Embeds `base_cmd` of `run_task` (`agentd.py` lines 256–262): the playbook,
inventory, and the optional `--limit` / `--tags` / `-e @extra_vars.json`
arguments, shared by all three phases. -/
def base_cmd (playbook invPath runDir : String) (req : RunReqE) : List String :=
  ["ansible-playbook", playbook, "-i", invPath]
  ++ (if truthyOpt req.limit then ["--limit", req.limit.getD ""] else [])
  ++ (if truthyOpt req.tags then ["--tags", req.tags.getD ""] else [])
  ++ (if req.extraVars then ["-e", "@" ++ runDir ++ "/extra_vars.json"] else [])

/-- One external playbook invocation: the phase it belongs to and its
argument vector. -/
structure PhaseCall where
  phase : String
  args : List String
  deriving DecidableEq

inductive RunOutcome where
  | httpError (code : Nat) (detail : String)
  | summary (phase : String) (rc : Int) (failed : Bool) (bundle : String)
  deriving DecidableEq

/-- The `engine == "ansible"` branch of `run_task` (`agentd.py` lines
248–279; the same staged structure appears in `Containers/agentd.py` lines
309–327 and `Containers/runner_agentd.py` lines 470–505): syntax check,
then apply unless `verify == "syntax"`, then idempotency check only when
`verify == "all"` and the apply succeeded; every return archives the
workspace (`zip_result`) and reports the bundle path. -/
def run_phases (exec : List String → Int) (runDir playbook invPath : String) (req : RunReqE) :
    RunOutcome × List PhaseCall :=
  let base := base_cmd playbook invPath runDir req
  let sArgs := base ++ ["--syntax-check"]
  let rc1 := exec sArgs
  if rc1 ≠ 0 then
    (.summary "syntax" rc1 true (zipPath runDir), [⟨"syntax", sArgs⟩])
  else if req.verify = .vSyn then
    (.summary "syntax" 0 false (zipPath runDir), [⟨"syntax", sArgs⟩])
  else
    let rc2 := exec base
    if rc2 ≠ 0 ∨ req.verify ≠ .vAll then
      (.summary "apply" rc2 (rc2 != 0) (zipPath runDir),
       [⟨"syntax", sArgs⟩, ⟨"apply", base⟩])
    else
      let rc3 := exec (base ++ ["--check", "--diff"])
      (.summary "idempotency" rc3 (rc3 != 0) (zipPath runDir),
       [⟨"syntax", sArgs⟩, ⟨"apply", base⟩, ⟨"idempotency", base ++ ["--check", "--diff"]⟩])

/-! ## Inventory construction -/

inductive InvSpec where
  | str (s : String)
  | list (l : List String)
  deriving DecidableEq

inductive InvResult where
  | path (p : String)
  | written (text : String)
  | invError (msg : String)
  deriving DecidableEq

/-- One `[all]`-group line:
`f"{h} ansible_user={user}" + (f" ansible_ssh_private_key_file={ssh_key}" if ssh_key else "")`. -/
def host_line (user : String) (sshKey : Option String) (h : String) : String :=
  h ++ " ansible_user=" ++ user ++
  (if truthyOpt sshKey then " ansible_ssh_private_key_file=" ++ sshKey.getD "" else "")

/-- Embeds `[h.strip() for h in inv_spec.split(",") if h.strip()]` -/
def csvHosts (s : String) : List String :=
  ((s.splitOn ",").map pyStrip).filter (fun h => !h.isEmpty)

/-- Embeds `[h.strip() for h in inv_spec if isinstance(h, str) and h.strip()]`
(list elements are strings in this model, so the `isinstance` test holds). -/
def listHosts (l : List String) : List String :=
  (l.map pyStrip).filter (fun h => !h.isEmpty)

/-- The `[all]` group body of the synthesized inventory. -/
def all_group_lines (user : String) (sshKey : Option String) (hosts : List String) :
    List String :=
  hosts.map (host_line user sshKey)

/-- The synthesized inventory text of `agentd.py:build_inventory`
(lines 93–96); the Containers variants append a further `[webserver]`
convenience group after this text. -/
def inv_text (user : String) (sshKey : Option String) (hosts : List String) : String :=
  "[all]\n" ++ String.intercalate "\n" (all_group_lines user sshKey hosts) ++ "\n"

/-- Embeds `build_inventory` (`agentd.py` lines 76–99; same control flow in
`Containers/agentd.py` lines 98–123 and `Containers/runner_agentd.py` lines
150–182): verbatim inline text wins; an existing path is returned resolved;
otherwise the spec is read as a CSV string or host list, failing when no
host remains. -/
def build_inventory (exists? : String → Bool) (resolve : String → String)
    (spec : InvSpec) (user : String) (sshKey inline : Option String) : InvResult :=
  if truthyOpt inline then .written (inline.getD "")
  else
    match spec with
    | .str s =>
      if exists? s then .path (resolve s)
      else if (csvHosts s).isEmpty then .invError "inventory host list is empty"
      else .written (inv_text user sshKey (csvHosts s))
    | .list l =>
      if (listHosts l).isEmpty then .invError "inventory host list is empty"
      else .written (inv_text user sshKey (listHosts l))

/-- The full run request. -/
structure RunReqFull where
  verify : VerifyLevel
  user : String
  sshKey : Option String
  limit : Option String
  tags : Option String
  extraVars : Bool
  inventory : InvSpec
  inventoryFileContent : Option String
  deriving DecidableEq

/-- Embeds `run_task` (`agentd.py` lines 232–286, subprocess engine): 404 when the
workspace is missing, 400 when it holds no playbook, 400 when inventory
construction fails (all before any external invocation), then the staged
phases.  A `.written` inventory lives at `run_dir/inventory.ini`. -/
def run_task (exec : List String → Int) (exists? : String → Bool)
    (resolve : String → String) (wsExists : Bool) (ymls : List String)
    (runDir : String) (req : RunReqFull) : RunOutcome × List PhaseCall :=
  if !wsExists then (.httpError 404 "task_id not found", [])
  else
    match ymls with
    | [] => (.httpError 400 "no playbook in run_dir", [])
    | pb :: _ =>
      match build_inventory exists? resolve req.inventory req.user req.sshKey
          req.inventoryFileContent with
      | .invError msg => (.httpError 400 msg, [])
      | .path p =>
        run_phases exec runDir pb p ⟨req.verify, req.limit, req.tags, req.extraVars⟩
      | .written _ =>
        run_phases exec runDir pb (runDir ++ "/inventory.ini")
          ⟨req.verify, req.limit, req.tags, req.extraVars⟩

/-! ## The streaming engine (`runner_stream`) -/

inductive SEvent where
  | ev (phase : String) (stdout : String)
  | phaseSummary (phase : String) (rc : Int) (failed : Bool)
  | idemSummary (rc : Int) (failed : Bool) (changed : Int)
  | endMark
  | bundle (path : String)
  deriving DecidableEq

/-- One `ansible_runner.run_async` invocation: its phase and `cmdline`. -/
structure StreamCall where
  phase : String
  cmdline : String
  deriving DecidableEq

/-- The apply-phase `cmdline`:
`" ".join(["--limit", limit] if limit else [] + ...)`. -/
def stream_apply_cmdline (req : RunReqE) : String :=
  String.intercalate " "
    ((if truthyOpt req.limit then ["--limit", req.limit.getD ""] else [])
     ++ (if truthyOpt req.tags then ["--tags", req.tags.getD ""] else []))

/-- Embeds `for ev in r.events: if ev.get("stdout", "").strip(): yield …` -/
def evLines (phase : String) (outs : List String) : List SEvent :=
  (outs.filter (fun s => !(pyStrip s).isEmpty)).map (SEvent.ev phase)

/-- Embeds `runner_stream` (`agentd.py` lines 109–196; `Containers/runner_agentd.py`
lines 192–301): the three `run_async` phases with early termination.
`rc1 rc2 rc3` are the external return codes, `out1 out2 out3` the event
stdout lines, and `changed` the changed-count extracted from the
idempotency run's statistics (0 when unavailable). -/
def runner_stream (rc1 rc2 rc3 : Int) (out1 out2 out3 : List String) (changed : Int)
    (req : RunReqE) : List SEvent × List StreamCall :=
  let c1 : StreamCall := ⟨"syntax", "--syntax-check"⟩
  let e1 := evLines "syntax" out1
  if rc1 ≠ 0 then (e1 ++ [.phaseSummary "syntax" rc1 true, .endMark], [c1])
  else if req.verify = .vSyn then (e1 ++ [.phaseSummary "syntax" 0 false, .endMark], [c1])
  else
    let c2 : StreamCall := ⟨"apply", stream_apply_cmdline req⟩
    let e2 := evLines "apply" out2
    if rc2 ≠ 0 then (e1 ++ e2 ++ [.phaseSummary "apply" rc2 true, .endMark], [c1, c2])
    else if req.verify ≠ .vAll then
      (e1 ++ e2 ++ [.phaseSummary "apply" rc2 false, .endMark], [c1, c2])
    else
      let c3 : StreamCall := ⟨"idempotency", "--check --diff"⟩
      let e3 := evLines "idempotency" out3
      (e1 ++ e2 ++ e3 ++ [.idemSummary rc3 (rc3 != 0) changed, .endMark], [c1, c2, c3])

/-- Embeds `stream_and_zip` (`agentd.py` lines 281–284): the streamed events
followed unconditionally by the bundle event. -/
def stream_and_zip (rc1 rc2 rc3 : Int) (out1 out2 out3 : List String) (changed : Int)
    (req : RunReqE) (runDir : String) : List SEvent × List StreamCall :=
  let r := runner_stream rc1 rc2 rc3 out1 out2 out3 changed req
  (r.1 ++ [.bundle (zipPath runDir)], r.2)

/-! ## The generation endpoint -/

inductive GenOutcome where
  | genError (code : Nat) (detail : String)
  | written (content : String)
  deriving DecidableEq

/-- Embeds `generate` of `agentd.py` (lines 198–230), after the upstream call:
`completion = none` models the upstream client raising (HTTP 500
"LLM error: …").  When a completion text is returned, the try block
executes `text = sanitize_yaml(raw)` (line 222), but the name `raw` is
never bound anywhere in the function, so the statement raises `NameError`,
which the handler rewrites into the same HTTP 500 "LLM error: …" failure.
No branch reaches the 422 check or `write_file`. -/
def generate_A (completion : Option String) : GenOutcome :=
  match completion with
  | none => .genError 500 "LLM error"
  | some _ => .genError 500 "LLM error: NameError"

/-- Embeds `generate` of `Containers/agentd.py` (lines 204–245): strong fence
strip, sanitize, strong fence strip again; 422 when the final text strips
to empty, otherwise the playbook file is written. -/
def generate_C (parse : String → Option YVal) (completion : Option String) : GenOutcome :=
  match completion with
  | none => .genError 500 "LLM error"
  | some c =>
    let t3 := strip_fences_strong (sanitize_yaml_C parse (strip_fences_strong c))
    if (pyStrip t3).isEmpty then .genError 422 "LLM returned empty content"
    else .written t3

/-- The host list a non-path, non-inline inventory specification resolves
to (CSV split for strings, element-wise strip-and-filter for lists). -/
def specHosts : InvSpec → List String
  | .str s => csvHosts s
  | .list l => listHosts l

/-! ## Lemmas and claim theorems -/

theorem dropWhile_idem (p : Char → Bool) (l : List Char) :
    (l.dropWhile p).dropWhile p = l.dropWhile p := by
  induction l with
  | nil => rfl
  | cons c cs ih =>
    by_cases h : p c
    · simp [List.dropWhile_cons, h, ih]
    · simp [List.dropWhile_cons, h]

theorem dropWhile_suffix (p : Char → Bool) (l : List Char) :
    l.dropWhile p <:+ l :=
  ⟨l.takeWhile p, l.takeWhile_append_dropWhile p⟩

theorem lstripL_suffix (l : List Char) : lstripL l <:+ l :=
  dropWhile_suffix _ l

theorem rstripL_isPrefix (l : List Char) : rstripL l <+: l := by
  have h : l.reverse.dropWhile isPySpace <:+ l.reverse := dropWhile_suffix _ _
  rw [← List.reverse_suffix]
  simpa [rstripL] using h

theorem pyStripL_isInfix (l : List Char) : pyStripL l <:+: l :=
  ((rstripL_isPrefix (lstripL l)).isInfix).trans (lstripL_suffix l).isInfix

theorem lstripL_idem (l : List Char) : lstripL (lstripL l) = lstripL l :=
  dropWhile_idem _ l

theorem rstripL_idem (l : List Char) : rstripL (rstripL l) = rstripL l := by
  unfold rstripL
  rw [List.reverse_reverse, dropWhile_idem]

/-- The head of `dropWhile p l`, when it exists, fails `p`. -/
theorem dropWhile_head_false (p : Char → Bool) (l : List Char) (c : Char)
    (rest : List Char) (h : l.dropWhile p = c :: rest) : p c = false := by
  induction l with
  | nil => simp at h
  | cons a as ih =>
    by_cases ha : p a
    · rw [List.dropWhile_cons_of_pos ha] at h
      exact ih h
    · rw [List.dropWhile_cons_of_neg ha] at h
      cases h
      simpa using ha

theorem lstrip_rstrip_comm_fixed (l : List Char) :
    lstripL (rstripL (lstripL l)) = rstripL (lstripL l) := by
  set a := lstripL l with ha
  cases hcase : rstripL a with
  | nil => rfl
  | cons c rest =>
    have hpref : rstripL a <+: a := rstripL_isPrefix a
    rw [hcase] at hpref
    obtain ⟨t, ht⟩ := hpref
    have hdw : a.dropWhile isPySpace = a := by
      rw [ha]
      exact dropWhile_idem isPySpace l
    have hc : isPySpace c = false := by
      apply dropWhile_head_false isPySpace a c (rest ++ t)
      rw [hdw, ← ht]
      simp
    show lstripL (c :: rest) = c :: rest
    unfold lstripL
    exact List.dropWhile_cons_of_neg (by simp [hc])

theorem pyStripL_idem (l : List Char) : pyStripL (pyStripL l) = pyStripL l := by
  unfold pyStripL
  rw [lstrip_rstrip_comm_fixed, rstripL_idem]

theorem pyStrip_idem (s : String) : pyStrip (pyStrip s) = pyStrip s := by
  simp [pyStrip, pyStripL_idem]

theorem matchPrefixRest_append (eqc : Char → Char → Bool) (pat l t r : List Char)
    (h : matchPrefixRest eqc pat l = some r) :
    matchPrefixRest eqc pat (l ++ t) = some (r ++ t) := by
  induction pat generalizing l r with
  | nil =>
    simp [matchPrefixRest] at h
    simp [matchPrefixRest, h]
  | cons p ps ih =>
    cases l with
    | nil => simp [matchPrefixRest] at h
    | cons c cs =>
      simp only [matchPrefixRest] at h ⊢
      by_cases he : eqc p c
      · rw [if_pos he] at h ⊢
        exact ih cs r h
      · rw [if_neg he] at h
        exact absurd h (by simp)

theorem prefixMatch_append (eqc : Char → Char → Bool) (pat l t : List Char)
    (h : prefixMatch eqc pat l = true) : prefixMatch eqc pat (l ++ t) = true := by
  unfold prefixMatch at h ⊢
  cases hm : matchPrefixRest eqc pat l with
  | none => rw [hm] at h; simp at h
  | some r => rw [matchPrefixRest_append eqc pat l t r hm]; rfl

theorem containsPat_append_right (eqc : Char → Char → Bool) (pat a b : List Char)
    (h : containsPat eqc pat b = true) : containsPat eqc pat (a ++ b) = true := by
  induction a with
  | nil => simpa using h
  | cons c cs ih =>
    show (prefixMatch eqc pat (c :: (cs ++ b)) || containsPat eqc pat (cs ++ b)) = true
    rw [ih]
    simp

theorem containsPat_append_left (eqc : Char → Char → Bool) (pat a b : List Char)
    (h : containsPat eqc pat a = true) : containsPat eqc pat (a ++ b) = true := by
  induction a with
  | nil =>
    simp [containsPat] at h
    cases b with
    | nil => simpa [containsPat, List.isEmpty_iff] using h
    | cons x xs =>
      simp only [List.nil_append, containsPat]
      rw [h]
      simp [prefixMatch, matchPrefixRest]
  | cons c cs ih =>
    simp only [containsPat, Bool.or_eq_true] at h
    simp only [List.cons_append, containsPat, Bool.or_eq_true]
    rcases h with h | h
    · exact Or.inl (prefixMatch_append eqc pat (c :: cs) b h)
    · exact Or.inr (ih h)

theorem containsPat_isInfix (eqc : Char → Char → Bool) (pat l₁ l₂ : List Char)
    (hinf : l₁ <:+: l₂) (h : containsPat eqc pat l₁ = true) :
    containsPat eqc pat l₂ = true := by
  obtain ⟨u, v, huv⟩ := hinf
  subst huv
  rw [List.append_assoc]
  exact containsPat_append_right eqc pat u _ (containsPat_append_left eqc pat l₁ v h)

theorem containsPat_pyStrip (eqc : Char → Char → Bool) (pat l : List Char)
    (h : containsPat eqc pat l = false) : containsPat eqc pat (pyStripL l) = false := by
  by_contra hc
  rw [Bool.not_eq_false] at hc
  rw [containsPat_isInfix eqc pat (pyStripL l) l (pyStripL_isInfix l) hc] at h
  simp at h

theorem dropToPat_of_prefix (pat l : List Char) (h : prefixMatch charEqB pat l = true) :
    dropToPat pat l = l := by
  cases l with
  | nil => rfl
  | cons c cs => simp [dropToPat, h]

example : yamlParse "---\n- hosts: all\n  tasks: []\n" =
    some (.listV [.mapV [("hosts", .strV "all"), ("tasks", .listV [])]]) := by rfl

example : is_valid_playbook yamlParse "---\n- hosts: all\n  tasks: []\n" = true := by rfl

example : yamlParse "I cannot help with that request.\n" =
    some (.strV "I cannot help with that request.") := by rfl

example : yamlParse "\n" = some .nullV := by rfl

example : yamlParse "alpha beta\ngamma\n" = some (.strV "alpha beta gamma") := by rfl

/-! ## No-occurrence lemmas for the scanners -/

theorem containsPat_cons_false (eqc : Char → Char → Bool) (pat : List Char) (c : Char)
    (rest : List Char) (h : containsPat eqc pat (c :: rest) = false) :
    prefixMatch eqc pat (c :: rest) = false ∧ containsPat eqc pat rest = false := by
  have h2 : (prefixMatch eqc pat (c :: rest) || containsPat eqc pat rest) = false := h
  exact Bool.or_eq_false_iff.mp h2

theorem prefixMatch_containsPat (eqc : Char → Char → Bool) (pat l : List Char)
    (h : prefixMatch eqc pat l = true) : containsPat eqc pat l = true := by
  cases l with
  | nil =>
    cases pat with
    | nil => rfl
    | cons p ps => simp [prefixMatch, matchPrefixRest] at h
  | cons c cs => simp [containsPat, h]

theorem prefixMatch_false_suffix (eqc : Char → Char → Bool) (pat l s : List Char)
    (hs : s <:+ l) (h : containsPat eqc pat l = false) :
    prefixMatch eqc pat s = false := by
  by_contra hc
  rw [Bool.not_eq_false] at hc
  have h1 := prefixMatch_containsPat eqc pat s hc
  rw [containsPat_isInfix eqc pat s l hs.isInfix h1] at h
  exact absurd h (by simp)

theorem sub1Go_id (fuel : Nat) (atLS : Bool) (l : List Char)
    (h : containsPat charEqB "```".data l = false) : sub1Go fuel atLS l = l := by
  induction fuel generalizing atLS l with
  | zero => rfl
  | succ fuel ih =>
    cases l with
    | nil => rfl
    | cons c rest =>
      obtain ⟨h1, h2⟩ := containsPat_cons_false _ _ _ _ h
      simp only [sub1Go, h1, Bool.and_false, Bool.false_eq_true, if_false]
      rw [ih _ rest h2]

theorem sub2Go_id (fuel : Nat) (l : List Char)
    (h : containsPat charEqB "```".data l = false) : sub2Go fuel l = l := by
  induction fuel generalizing l with
  | zero => rfl
  | succ fuel ih =>
    cases l with
    | nil => rfl
    | cons c rest =>
      obtain ⟨_, h2⟩ := containsPat_cons_false _ _ _ _ h
      have h3 : prefixMatch charEqB "```".data ((c :: rest).dropWhile isPySpace) = false :=
        prefixMatch_false_suffix _ _ _ _ (dropWhile_suffix _ _) h
      simp only [sub2Go, h3, Bool.false_and, Bool.false_eq_true, if_false]
      rw [ih rest h2]

theorem replaceAllGo_id (fuel : Nat) (pat repl l : List Char)
    (h : containsPat charEqB pat l = false) : replaceAllGo fuel pat repl l = l := by
  induction fuel generalizing l with
  | zero => rfl
  | succ fuel ih =>
    cases l with
    | nil => rfl
    | cons c rest =>
      obtain ⟨h1, h2⟩ := containsPat_cons_false _ _ _ _ h
      simp only [replaceAllGo, h1, Bool.false_eq_true, if_false]
      rw [ih rest h2]

theorem lineSubGo_id (fuel : Nat) (atLS : Bool) (l : List Char)
    (hb : containsPat charEqB "```".data l = false)
    (ht : containsPat charEqB "~~~".data l = false) :
    lineSubGo fuel atLS l = l := by
  induction fuel generalizing atLS l with
  | zero => rfl
  | succ fuel ih =>
    cases l with
    | nil => rfl
    | cons c rest =>
      obtain ⟨_, hb2⟩ := containsPat_cons_false _ _ _ _ hb
      obtain ⟨_, ht2⟩ := containsPat_cons_false _ _ _ _ ht
      have h3 : prefixMatch charEqB "```".data ((c :: rest).dropWhile isPySpace) = false :=
        prefixMatch_false_suffix _ _ _ _ (dropWhile_suffix _ _) hb
      have h4 : prefixMatch charEqB "~~~".data ((c :: rest).dropWhile isPySpace) = false :=
        prefixMatch_false_suffix _ _ _ _ (dropWhile_suffix _ _) ht
      simp only [lineSubGo, h3, h4, Bool.or_self, Bool.and_false, Bool.false_eq_true, if_false]
      rw [ih _ rest hb2 ht2]

theorem yamlSubGo_id (fuel : Nat) (atLS : Bool) (l : List Char)
    (h : containsPat charEqCI "yaml".data l = false) :
    yamlSubGo fuel atLS l = l := by
  induction fuel generalizing atLS l with
  | zero => rfl
  | succ fuel ih =>
    cases l with
    | nil => rfl
    | cons c rest =>
      obtain ⟨_, h2⟩ := containsPat_cons_false _ _ _ _ h
      have h3 : prefixMatch charEqCI "yaml".data ((c :: rest).dropWhile isPySpace) = false :=
        prefixMatch_false_suffix _ _ _ _ (dropWhile_suffix _ _) h
      have h4 : matchPrefixRest charEqCI "yaml".data ((c :: rest).dropWhile isPySpace) = none := by
        cases hm : matchPrefixRest charEqCI "yaml".data ((c :: rest).dropWhile isPySpace) with
        | none => rfl
        | some r => rw [prefixMatch, hm] at h3; exact absurd h3 (by simp)
      cases hA : atLS with
      | false =>
        simp only [yamlSubGo, hA, Bool.false_eq_true, if_false]
        rw [ih _ rest h2]
      | true =>
        simp only [yamlSubGo, hA, if_true, h4]
        rw [ih _ rest h2]

theorem fenceAnyGo_nil (fuel : Nat) (atLS : Bool) (l : List Char)
    (hb : containsPat charEqB "```".data l = false)
    (ht : containsPat charEqB "~~~".data l = false) :
    fenceAnyGo fuel atLS l = [] := by
  induction fuel generalizing atLS l with
  | zero => rfl
  | succ fuel ih =>
    cases l with
    | nil => rfl
    | cons c rest =>
      obtain ⟨_, hb2⟩ := containsPat_cons_false _ _ _ _ hb
      obtain ⟨_, ht2⟩ := containsPat_cons_false _ _ _ _ ht
      have h3 : prefixMatch charEqB "```".data ((c :: rest).dropWhile isPySpace) = false :=
        prefixMatch_false_suffix _ _ _ _ (dropWhile_suffix _ _) hb
      have h4 : prefixMatch charEqB "~~~".data ((c :: rest).dropWhile isPySpace) = false :=
        prefixMatch_false_suffix _ _ _ _ (dropWhile_suffix _ _) ht
      have h5 : fenceAnyOpensAt (c :: rest) = false := by
        simp [fenceAnyOpensAt, h3, h4]
      simp only [fenceAnyGo, h5, Bool.and_false, Bool.false_eq_true, if_false]
      exact ih _ rest hb2 ht2

theorem prefixMatch_false_isInfix (eqc : Char → Char → Bool) (pat l s : List Char)
    (hs : s <:+: l) (h : containsPat eqc pat l = false) :
    prefixMatch eqc pat s = false := by
  by_contra hc
  rw [Bool.not_eq_false] at hc
  have h1 := prefixMatch_containsPat eqc pat s hc
  rw [containsPat_isInfix eqc pat s l hs h1] at h
  exact absurd h (by simp)

/-- With no fence marker anywhere, `strip_fences` is exactly `str.strip()`. -/
theorem strip_fences_eq_strip (text : String) (h : containsSub "```" text = false) :
    strip_fences text = pyStrip text := by
  have h2 : containsPat charEqB "```".data (pyStripL text.data) = false :=
    containsPat_pyStrip _ _ _ h
  simp [strip_fences, pyStrip, h2]

/-- With no fence marker anywhere, `strip_markdown_fences` is exactly
`str.strip()`. -/
theorem strip_markdown_fences_eq_strip (text : String) (h : containsSub "```" text = false) :
    strip_markdown_fences text = pyStrip text := by
  have h2 : prefixMatch charEqB "```".data (pyStripL text.data) = false :=
    prefixMatch_false_isInfix charEqB _ _ _ (pyStripL_isInfix text.data) h
  simp [strip_markdown_fences, pyStrip, h2]

/-- With no fence marker, no CRLF and no `yaml` token anywhere,
`strip_fences_strong` is exactly `str.strip()`. -/
theorem strip_fences_strong_eq_strip (text : String)
    (hb : containsSub "```" text = false) (ht : containsSub "~~~" text = false)
    (hcr : containsSub "\r\n" text = false)
    (hy : containsPat charEqCI "yaml".data text.data = false) :
    strip_fences_strong text = pyStrip text := by
  have hcr2 : replaceAll "\r\n".data "\n".data text.data = text.data :=
    replaceAllGo_id _ _ _ _ hcr
  have hblocks : fenceAnyFindall text.data = [] := fenceAnyGo_nil _ _ _ hb ht
  have hline : lineSubFence text.data = text.data := lineSubGo_id _ _ _ hb ht
  have hb2 : replaceAll "```".data [] text.data = text.data := replaceAllGo_id _ _ _ _ hb
  have ht2 : replaceAll "~~~".data [] text.data = text.data := replaceAllGo_id _ _ _ _ ht
  have hy2 : yamlSub text.data = text.data := yamlSubGo_id _ _ _ hy
  simp [strip_fences_strong, pyStrip, hcr2, hblocks, hline, hb2, ht2, hy2]

/-! ## Claims -/

/-- Claim **C1**: For every run request and every requested verification level,
the staged execution engine — both the subprocess branch of `run_task` and
the streaming `runner_stream` — never invokes the apply phase when the
syntax phase's return code is non-zero, and never invokes the idempotency
phase unless the requested level is "all" and both the syntax and the apply
phase returned zero. -/
theorem C1_stage_gating (exec : List String → Int) (runDir playbook invPath : String)
    (req : RunReqE) (rc1 rc2 rc3 : Int) (out1 out2 out3 : List String) (changed : Int) :
    (exec (base_cmd playbook invPath runDir req ++ ["--syntax-check"]) ≠ 0 →
      ∀ pc ∈ (run_phases exec runDir playbook invPath req).2, pc.phase = "syntax") ∧
    ((∃ pc ∈ (run_phases exec runDir playbook invPath req).2, pc.phase = "idempotency") →
      req.verify = .vAll ∧
      exec (base_cmd playbook invPath runDir req ++ ["--syntax-check"]) = 0 ∧
      exec (base_cmd playbook invPath runDir req) = 0) ∧
    (rc1 ≠ 0 →
      ∀ sc ∈ (runner_stream rc1 rc2 rc3 out1 out2 out3 changed req).2, sc.phase = "syntax") ∧
    ((∃ sc ∈ (runner_stream rc1 rc2 rc3 out1 out2 out3 changed req).2,
        sc.phase = "idempotency") →
      req.verify = .vAll ∧ rc1 = 0 ∧ rc2 = 0) := by
  refine ⟨?_, ?_, ?_, ?_⟩
  · intro hrc pc hpc
    simp only [run_phases, if_pos hrc] at hpc
    simp at hpc
    rw [hpc]
  · rintro ⟨pc, hpc, hph⟩
    by_cases h1 : exec (base_cmd playbook invPath runDir req ++ ["--syntax-check"]) ≠ 0
    · simp only [run_phases, if_pos h1] at hpc
      simp at hpc
      rw [hpc] at hph
      simp at hph
    · by_cases h2 : req.verify = VerifyLevel.vSyn
      · simp only [run_phases, if_neg h1, if_pos h2] at hpc
        simp at hpc
        rw [hpc] at hph
        simp at hph
      · by_cases h3 : exec (base_cmd playbook invPath runDir req) ≠ 0 ∨
            req.verify ≠ VerifyLevel.vAll
        · simp only [run_phases, if_neg h1, if_neg h2, if_pos h3] at hpc
          simp at hpc
          rcases hpc with h | h <;> rw [h] at hph <;> simp at hph
        · push_neg at h1 h3
          exact ⟨h3.2, h1, h3.1⟩
  · intro hrc sc hsc
    simp only [runner_stream, if_pos hrc] at hsc
    simp at hsc
    rw [hsc]
  · rintro ⟨sc, hsc, hph⟩
    by_cases h1 : rc1 ≠ 0
    · simp only [runner_stream, if_pos h1] at hsc
      simp at hsc
      rw [hsc] at hph
      simp at hph
    · by_cases h2 : req.verify = VerifyLevel.vSyn
      · simp only [runner_stream, if_neg h1, if_pos h2] at hsc
        simp at hsc
        rw [hsc] at hph
        simp at hph
      · by_cases h3 : rc2 ≠ 0
        · simp only [runner_stream, if_neg h1, if_neg h2, if_pos h3] at hsc
          simp at hsc
          rcases hsc with h | h <;> rw [h] at hph <;> simp at hph
        · by_cases h4 : req.verify ≠ VerifyLevel.vAll
          · simp only [runner_stream, if_neg h1, if_neg h2, if_neg h3, if_pos h4] at hsc
            simp at hsc
            rcases hsc with h | h <;> rw [h] at hph <;> simp at hph
          · push_neg at h1 h3 h4
            exact ⟨h4, h1, h3⟩

/-- Concrete instantiation of the C1 gating law: a run with verification
level "all" on which every external command succeeds reaches the
idempotency phase, and the law yields that the level is "all" and the
syntax and apply return codes are zero; a failing syntax check confines the
calls of another run to the syntax phase. -/
theorem C1_stage_gating_witness :
    (RunReqE.verify ⟨.vAll, none, none, false⟩ = .vAll ∧
      (fun (_ : List String) => (0 : Int))
          (base_cmd "p.yml" "i.ini" "/work/run_a" ⟨.vAll, none, none, false⟩ ++
            ["--syntax-check"]) = 0 ∧
      (fun (_ : List String) => (0 : Int))
          (base_cmd "p.yml" "i.ini" "/work/run_a" ⟨.vAll, none, none, false⟩) = 0) ∧
    PhaseCall.phase ⟨"syntax", base_cmd "p.yml" "i.ini" "/work/run_a"
        ⟨.vAll, none, none, false⟩ ++ ["--syntax-check"]⟩ = "syntax" := by
  constructor
  · exact (C1_stage_gating (fun _ => 0) "/work/run_a" "p.yml" "i.ini"
      ⟨.vAll, none, none, false⟩ 0 0 0 [] [] [] 0).2.1 (by decide)
  · exact (C1_stage_gating (fun _ => 1) "/work/run_a" "p.yml" "i.ini"
      ⟨.vAll, none, none, false⟩ 0 0 0 [] [] [] 0).1 (by decide) _ (by decide)

/-- Claim **C2** is false on the code: `run_task` has no branch for verification
level "none", so such a run still invokes external playbook commands.  With
every external command succeeding, a verify="none" run performs the
syntax-check and the apply command (two invocations, not zero) and reports
an apply-phase summary, not an unexecuted state. -/
theorem C2_counterexample :
    ((run_task (fun _ => 0) (fun _ => false) id true ["site.yml"] "/work/run_b"
        ⟨.vNone, "rocky", some "/home/agent/.ssh/id_rsa", none, none, false,
          .list ["h1"], none⟩).2.map PhaseCall.phase) = ["syntax", "apply"] ∧
    (run_task (fun _ => 0) (fun _ => false) id true ["site.yml"] "/work/run_b"
        ⟨.vNone, "rocky", some "/home/agent/.ssh/id_rsa", none, none, false,
          .list ["h1"], none⟩).2 ≠ [] := by
  refine ⟨by decide, by decide⟩

/-- Claim **C2** (amended): a verify="none" run executes the syntax phase and,
exactly when the syntax check succeeds, the apply phase; the idempotency
phase never runs, and the result summarises the last executed phase — no
unexecuted state is reported.  The same holds in the streaming engine. -/
theorem C2_amended (exec : List String → Int) (runDir playbook invPath : String)
    (req : RunReqE) (rc1 rc2 rc3 : Int) (out1 out2 out3 : List String) (changed : Int)
    (hv : req.verify = .vNone) :
    ((run_phases exec runDir playbook invPath req).2.map PhaseCall.phase =
      if exec (base_cmd playbook invPath runDir req ++ ["--syntax-check"]) ≠ 0 then
        ["syntax"] else ["syntax", "apply"]) ∧
    ((runner_stream rc1 rc2 rc3 out1 out2 out3 changed req).2.map StreamCall.phase =
      if rc1 ≠ 0 then ["syntax"] else ["syntax", "apply"]) := by
  constructor
  · by_cases h1 : exec (base_cmd playbook invPath runDir req ++ ["--syntax-check"]) ≠ 0
    · simp [run_phases, h1]
    · simp [run_phases, h1, hv]
  · by_cases h1 : rc1 ≠ 0
    · simp [runner_stream, h1]
    · simp [runner_stream, h1, hv]
      split_ifs <;> rfl

/-- Concrete instantiation of the amended C2 law at a verify="none" run on
which all external commands succeed. -/
theorem C2_amended_witness :
    ((run_phases (fun _ => 0) "/work/run_b" "p.yml" "i.ini"
        ⟨.vNone, none, none, false⟩).2.map PhaseCall.phase =
      if (fun (_ : List String) => (0 : Int))
          (base_cmd "p.yml" "i.ini" "/work/run_b" ⟨.vNone, none, none, false⟩ ++
            ["--syntax-check"]) ≠ 0 then
        ["syntax"] else ["syntax", "apply"]) ∧
    ((runner_stream 0 0 0 [] [] [] 0 ⟨.vNone, none, none, false⟩).2.map StreamCall.phase =
      if (0 : Int) ≠ 0 then ["syntax"] else ["syntax", "apply"]) :=
  C2_amended (fun _ => 0) "/work/run_b" "p.yml" "i.ini" ⟨.vNone, none, none, false⟩
    0 0 0 [] [] [] 0 rfl

/-- Claim **C4** is false on the code: in the subprocess engine the host-limit
filter sits in the shared base command, so the syntax-check command itself
carries `--limit`; in the streaming engine the idempotency cmdline is the
constant "--check --diff", carrying no filter arguments at all. -/
theorem C4_counterexample :
    "--limit" ∈ (((run_phases (fun _ => 0) "/work/run_c" "p.yml" "i.ini"
        ⟨.vAll, some "web1", none, false⟩).2.head?.getD ⟨"", []⟩).args) ∧
    ((run_phases (fun _ => 0) "/work/run_c" "p.yml" "i.ini"
        ⟨.vAll, some "web1", none, false⟩).2.head?.getD ⟨"", []⟩).phase = "syntax" ∧
    ((runner_stream 0 0 0 [] [] [] 0 ⟨.vAll, some "web1", none, false⟩).2.getLast?.getD
        ⟨"", ""⟩) = ⟨"idempotency", "--check --diff"⟩ ∧
    containsSub "--limit" "--check --diff" = false := by
  refine ⟨by decide, by decide, by decide, by decide⟩

/-- Claim **C4** (amended): with truthy host-limit and tag filters, the
subprocess engine passes `--limit <v>` and `--tags <v>` in the argument
vector of every executed phase, including the syntax check; the streaming
engine passes them only in the apply phase's cmdline, the syntax and
idempotency cmdlines being the constants "--syntax-check" and
"--check --diff". -/
theorem C4_amended (exec : List String → Int) (runDir playbook invPath : String)
    (req : RunReqE) (rc1 rc2 rc3 : Int) (out1 out2 out3 : List String) (changed : Int)
    (hl : truthyOpt req.limit = true) (ht : truthyOpt req.tags = true) :
    (∀ pc ∈ (run_phases exec runDir playbook invPath req).2,
      "--limit" ∈ pc.args ∧ req.limit.getD "" ∈ pc.args ∧
      "--tags" ∈ pc.args ∧ req.tags.getD "" ∈ pc.args) ∧
    (∀ sc ∈ (runner_stream rc1 rc2 rc3 out1 out2 out3 changed req).2,
      (sc.phase = "syntax" → sc.cmdline = "--syntax-check") ∧
      (sc.phase = "apply" →
        sc.cmdline = String.intercalate " "
          ["--limit", req.limit.getD "", "--tags", req.tags.getD ""]) ∧
      (sc.phase = "idempotency" → sc.cmdline = "--check --diff")) := by
  constructor
  · intro pc hpc
    by_cases h1 : exec (base_cmd playbook invPath runDir req ++ ["--syntax-check"]) ≠ 0
    · simp only [run_phases, if_pos h1] at hpc
      simp at hpc
      rw [hpc]
      refine ⟨?_, ?_, ?_, ?_⟩ <;> simp [base_cmd, hl, ht]
    · by_cases h2 : req.verify = VerifyLevel.vSyn
      · simp only [run_phases, if_neg h1, if_pos h2] at hpc
        simp at hpc
        rw [hpc]
        refine ⟨?_, ?_, ?_, ?_⟩ <;> simp [base_cmd, hl, ht]
      · by_cases h3 : exec (base_cmd playbook invPath runDir req) ≠ 0 ∨
            req.verify ≠ VerifyLevel.vAll
        · simp only [run_phases, if_neg h1, if_neg h2, if_pos h3] at hpc
          simp at hpc
          rcases hpc with h | h <;> rw [h] <;>
            refine ⟨?_, ?_, ?_, ?_⟩ <;> simp [base_cmd, hl, ht]
        · simp only [run_phases, if_neg h1, if_neg h2, if_neg h3] at hpc
          simp at hpc
          rcases hpc with h | h | h <;> rw [h] <;>
            refine ⟨?_, ?_, ?_, ?_⟩ <;> simp [base_cmd, hl, ht]
  · intro sc hsc
    by_cases h1 : rc1 ≠ 0
    · simp only [runner_stream, if_pos h1] at hsc
      simp at hsc
      rw [hsc]
      refine ⟨?_, ?_, ?_⟩ <;> simp [stream_apply_cmdline, hl, ht]
    · by_cases h2 : req.verify = VerifyLevel.vSyn
      · simp only [runner_stream, if_neg h1, if_pos h2] at hsc
        simp at hsc
        rw [hsc]
        refine ⟨?_, ?_, ?_⟩ <;> simp [stream_apply_cmdline, hl, ht]
      · by_cases h3 : rc2 ≠ 0
        · simp only [runner_stream, if_neg h1, if_neg h2, if_pos h3] at hsc
          simp at hsc
          rcases hsc with h | h <;> rw [h] <;>
            refine ⟨?_, ?_, ?_⟩ <;> simp [stream_apply_cmdline, hl, ht]
        · by_cases h4 : req.verify ≠ VerifyLevel.vAll
          · simp only [runner_stream, if_neg h1, if_neg h2, if_neg h3, if_pos h4] at hsc
            simp at hsc
            rcases hsc with h | h <;> rw [h] <;>
              refine ⟨?_, ?_, ?_⟩ <;> simp [stream_apply_cmdline, hl, ht]
          · simp only [runner_stream, if_neg h1, if_neg h2, if_neg h3, if_neg h4] at hsc
            simp at hsc
            rcases hsc with h | h | h <;> rw [h] <;>
              refine ⟨?_, ?_, ?_⟩ <;> simp [stream_apply_cmdline, hl, ht]

/-- Concrete instantiation of the amended C4 law: the syntax-check call of
a filtered run carries both filters, and the streamed idempotency call's
cmdline is the bare "--check --diff". -/
theorem C4_amended_witness :
    ("--limit" ∈ PhaseCall.args ⟨"syntax",
        base_cmd "p.yml" "i.ini" "/work/run_c" ⟨.vAll, some "web1", some "t1", false⟩ ++
          ["--syntax-check"]⟩ ∧
      (Option.getD (some "web1") "") ∈ PhaseCall.args ⟨"syntax",
        base_cmd "p.yml" "i.ini" "/work/run_c" ⟨.vAll, some "web1", some "t1", false⟩ ++
          ["--syntax-check"]⟩ ∧
      "--tags" ∈ PhaseCall.args ⟨"syntax",
        base_cmd "p.yml" "i.ini" "/work/run_c" ⟨.vAll, some "web1", some "t1", false⟩ ++
          ["--syntax-check"]⟩ ∧
      (Option.getD (some "t1") "") ∈ PhaseCall.args ⟨"syntax",
        base_cmd "p.yml" "i.ini" "/work/run_c" ⟨.vAll, some "web1", some "t1", false⟩ ++
          ["--syntax-check"]⟩) ∧
    (StreamCall.phase ⟨"idempotency", "--check --diff"⟩ = "idempotency" →
      StreamCall.cmdline ⟨"idempotency", "--check --diff"⟩ = "--check --diff") := by
  constructor
  · exact (C4_amended (fun _ => 0) "/work/run_c" "p.yml" "i.ini"
      ⟨.vAll, some "web1", some "t1", false⟩ 0 0 0 [] [] [] 0 (by decide) (by decide)).1
      _ (by decide)
  · exact ((C4_amended (fun _ => 0) "/work/run_c" "p.yml" "i.ini"
      ⟨.vAll, some "web1", some "t1", false⟩ 0 0 0 [] [] [] 0 (by decide) (by decide)).2
      _ (by decide)).2.2

/-- Claim **C3**: the claim states the intended behaviour, and
`Containers/agentd.py` implements it: a prose-only completion yields the
distinct HTTP 422 "unprocessable content" failure and no playbook write.
But `src/agentd.py:generate` line 222 calls `sanitize_yaml(raw)` on the
never-bound name `raw`, so every request — including the unprocessable
prose completion — raises `NameError` inside the try block and is reported
as the upstream HTTP 500 "LLM error" instead of the 422 (no playbook file
is written on either path). -/
theorem C3_generate_code_bug :
    generate_A (some "I cannot help with that request.") =
      .genError 500 "LLM error: NameError" ∧
    (∀ d, generate_A (some "I cannot help with that request.") ≠ .genError 422 d) ∧
    (∀ t, generate_A (some "I cannot help with that request.") ≠ .written t) ∧
    generate_A (some "") = .genError 500 "LLM error: NameError" ∧
    generate_C yamlParse (some "I cannot help with that request.") =
      .genError 422 "LLM returned empty content" ∧
    generate_C yamlParse (some "") = .genError 422 "LLM returned empty content" ∧
    (∀ t, generate_C yamlParse (some "I cannot help with that request.") ≠ .written t) := by
  refine ⟨rfl, ?_, ?_, rfl, by rfl, by rfl, ?_⟩
  · intro d h
    rw [show generate_A (some "I cannot help with that request.") =
      .genError 500 "LLM error: NameError" from rfl] at h
    injection h with h1 h2
    exact absurd h1 (by decide)
  · intro t h
    cases h
  · intro t h
    rw [show generate_C yamlParse (some "I cannot help with that request.") =
      .genError 422 "LLM returned empty content" from rfl] at h
    cases h

/-- Claim **C10**: with no (truthy) literal inventory text, a string inventory
specification naming an existing filesystem path resolves to that path
directly; nothing is written and the string is never read as a
comma-separated host list. -/
theorem C10_existing_path (exists? : String → Bool) (resolve : String → String)
    (s user : String) (sshKey inline : Option String)
    (hinl : truthyOpt inline = false) (hex : exists? s = true) :
    build_inventory exists? resolve (.str s) user sshKey inline = .path (resolve s) ∧
    (∀ t, build_inventory exists? resolve (.str s) user sshKey inline ≠ .written t) ∧
    (∀ m, build_inventory exists? resolve (.str s) user sshKey inline ≠ .invError m) := by
  have h : build_inventory exists? resolve (.str s) user sshKey inline = .path (resolve s) := by
    simp [build_inventory, hinl, hex]
  refine ⟨h, ?_, ?_⟩
  · intro t ht
    rw [h] at ht
    cases ht
  · intro m hm
    rw [h] at hm
    cases hm

/-- Concrete instantiation of C10: a request whose inventory field is the
path string of an existing inventory file. -/
theorem C10_existing_path_witness :
    build_inventory (fun _ => true) id (.str "/etc/ansible/hosts") "rocky"
      (some "/home/agent/.ssh/id_rsa") none = .path "/etc/ansible/hosts" :=
  (C10_existing_path (fun _ => true) id "/etc/ansible/hosts" "rocky"
    (some "/home/agent/.ssh/id_rsa") none (by decide) (by decide)).1

theorem string_append_right_cancel (a b t : String) (h : a ++ t = b ++ t) : a = b := by
  have hd : a.data ++ t.data = b.data ++ t.data := by
    have h1 := congrArg String.data h
    simpa [String.data_append] using h1
  have := List.append_cancel_right hd
  cases a
  cases b
  exact congrArg String.mk this

theorem host_line_injective (user : String) (sshKey : Option String) :
    Function.Injective (host_line user sshKey) := by
  intro a b h
  unfold host_line at h
  have h1 := string_append_right_cancel _ _ _ h
  have h2 := string_append_right_cancel _ _ _ h1
  exact string_append_right_cancel _ _ _ h2

theorem run_phases_bundle (exec : List String → Int) (runDir pb inv : String)
    (req : RunReqE) (ph : String) (rc : Int) (f : Bool) (b : String)
    (h : (run_phases exec runDir pb inv req).1 = .summary ph rc f b) :
    b = zipPath runDir := by
  by_cases h1 : exec (base_cmd pb inv runDir req ++ ["--syntax-check"]) ≠ 0
  · simp only [run_phases, if_pos h1] at h
    injection h with e1 e2 e3 e4
    exact e4.symm
  · by_cases h2 : req.verify = VerifyLevel.vSyn
    · simp only [run_phases, if_neg h1, if_pos h2] at h
      injection h with e1 e2 e3 e4
      exact e4.symm
    · by_cases h3 : exec (base_cmd pb inv runDir req) ≠ 0 ∨ req.verify ≠ VerifyLevel.vAll
      · simp only [run_phases, if_neg h1, if_neg h2, if_pos h3] at h
        injection h with e1 e2 e3 e4
        exact e4.symm
      · simp only [run_phases, if_neg h1, if_neg h2, if_neg h3] at h
        injection h with e1 e2 e3 e4
        exact e4.symm

/-- Claim **C7**: with no (truthy) literal inventory text and a specification
that is not an existing path, a specification yielding at least one
non-blank host synthesizes an inventory whose `[all]` group lines are
exactly the formatted supplied hosts — each line occurring as often as its
host was supplied, hence each supplied host exactly once when the supplied
hosts are pairwise distinct — while a specification yielding zero hosts
makes `run_task` fail with the HTTP 400 validation error before any
external playbook command is invoked. -/
theorem C7_inventory (exists? : String → Bool) (resolve : String → String)
    (spec : InvSpec) (user : String) (sshKey inline : Option String)
    (hinl : truthyOpt inline = false)
    (hpath : ∀ s, spec = .str s → exists? s = false) :
    (specHosts spec ≠ [] →
      build_inventory exists? resolve spec user sshKey inline =
        .written (inv_text user sshKey (specHosts spec)) ∧
      (∀ h, (all_group_lines user sshKey (specHosts spec)).count
          (host_line user sshKey h) = (specHosts spec).count h) ∧
      ((specHosts spec).Nodup → ∀ h ∈ specHosts spec,
        (all_group_lines user sshKey (specHosts spec)).count
          (host_line user sshKey h) = 1)) ∧
    (specHosts spec = [] →
      build_inventory exists? resolve spec user sshKey inline =
        .invError "inventory host list is empty" ∧
      ∀ (exec : List String → Int) (pb : String) (rest : List String)
        (runDir : String) (verify : VerifyLevel) (limit tags : Option String)
        (ev : Bool),
        run_task exec exists? resolve true (pb :: rest) runDir
          ⟨verify, user, sshKey, limit, tags, ev, spec, inline⟩ =
          (.httpError 400 "inventory host list is empty", [])) := by
  constructor
  · intro hne
    have hbuild : build_inventory exists? resolve spec user sshKey inline =
        .written (inv_text user sshKey (specHosts spec)) := by
      cases spec with
      | str s =>
        have hp := hpath s rfl
        simp only [specHosts] at hne ⊢
        simp [build_inventory, hinl, hp, hne]
      | list l =>
        simp only [specHosts] at hne ⊢
        simp [build_inventory, hinl, hne]
    refine ⟨hbuild, ?_, ?_⟩
    · intro h
      exact List.count_map_of_injective _ _ (host_line_injective user sshKey) h
    · intro hnd h hh
      exact Eq.trans
        (List.count_map_of_injective _ _ (host_line_injective user sshKey) h)
        (List.count_eq_one_of_mem hnd hh)
  · intro hz
    have hbuild : build_inventory exists? resolve spec user sshKey inline =
        .invError "inventory host list is empty" := by
      cases spec with
      | str s =>
        have hp := hpath s rfl
        simp only [specHosts] at hz
        simp [build_inventory, hinl, hp, hz]
      | list l =>
        simp only [specHosts] at hz
        simp [build_inventory, hinl, hz]
    refine ⟨hbuild, ?_⟩
    intro exec pb rest runDir verify limit tags ev
    simp [run_task, hbuild]

/-- Concrete instantiation of C7: a two-host list yields the two `[all]`
lines exactly once each, and the empty list is rejected with HTTP 400 and
no external invocation. -/
theorem C7_inventory_witness :
    (all_group_lines "rocky" none ["h1", "h2"]).count (host_line "rocky" none "h1") = 1 ∧
    build_inventory (fun _ => false) id (.list []) "rocky" none none =
      .invError "inventory host list is empty" ∧
    run_task (fun _ => 0) (fun _ => false) id true ["site.yml"] "/work/run_d"
      ⟨.vAll, "rocky", none, none, none, false, .list [], none⟩ =
      (.httpError 400 "inventory host list is empty", []) := by
  have h1 := (C7_inventory (fun _ => false) id (.list ["h1", "h2"]) "rocky" none none
    (by decide) (fun s hs => InvSpec.noConfusion hs)).1 (by decide)
  have h2 := (C7_inventory (fun _ => false) id (.list []) "rocky" none none
    (by decide) (fun s hs => InvSpec.noConfusion hs)).2 (by decide)
  exact ⟨h1.2.2 (by decide) "h1" (by decide), h2.1,
    h2.2 (fun _ => 0) "site.yml" [] "/work/run_d" .vAll none none false⟩

/-- Claim **C8**: every run invocation that reaches a phase outcome — any phase,
failed or not — carries the freshly produced workspace archive path in its
summary, and every streamed run emits the bundle event (with the archive
path) as its final event. -/
theorem C8_archival (exec : List String → Int) (exists? : String → Bool)
    (resolve : String → String) (wsExists : Bool) (ymls : List String)
    (runDir : String) (req : RunReqFull) (rc1 rc2 rc3 : Int)
    (out1 out2 out3 : List String) (changed : Int) (reqE : RunReqE) (runDir2 : String) :
    (∀ ph rc f b,
      (run_task exec exists? resolve wsExists ymls runDir req).1 = .summary ph rc f b →
      b = zipPath runDir) ∧
    (stream_and_zip rc1 rc2 rc3 out1 out2 out3 changed reqE runDir2).1.getLast? =
      some (.bundle (zipPath runDir2)) := by
  constructor
  · intro ph rc f b hout
    by_cases hw : wsExists
    · cases ymls with
      | nil =>
        rw [show (run_task exec exists? resolve wsExists [] runDir req).1 =
          .httpError 400 "no playbook in run_dir" by simp [run_task, hw]] at hout
        cases hout
      | cons pb rest =>
        rcases hbi : build_inventory exists? resolve req.inventory req.user req.sshKey
            req.inventoryFileContent with p | t | m
        all_goals
          simp only [run_task, hw, Bool.not_true, Bool.false_eq_true, if_false, hbi] at hout
        · exact run_phases_bundle exec runDir pb p _ ph rc f b hout
        · exact run_phases_bundle exec runDir pb (runDir ++ "/inventory.ini") _ ph rc f b hout
        · cases hout
    · rw [show (run_task exec exists? resolve wsExists ymls runDir req).1 =
        .httpError 404 "task_id not found" by simp [run_task, hw]] at hout
      cases hout
  · show ((runner_stream rc1 rc2 rc3 out1 out2 out3 changed reqE).1 ++
      [SEvent.bundle (zipPath runDir2)]).getLast? = some (.bundle (zipPath runDir2))
    rw [List.getLast?_concat]

/-- Concrete instantiation of C8: a fully successful verify="all" run
reaches the idempotency summary carrying the bundle path, and its streamed
twin ends with the bundle event. -/
theorem C8_archival_witness :
    "/work/run_e/bundle.zip" = zipPath "/work/run_e" ∧
    (stream_and_zip 0 0 0 [] [] [] 0 ⟨.vAll, none, none, false⟩ "/work/run_e").1.getLast? =
      some (.bundle (zipPath "/work/run_e")) := by
  have hc := C8_archival (fun _ => 0) (fun _ => false) id true ["site.yml"] "/work/run_e"
    ⟨.vAll, "rocky", none, none, none, false, .list ["h1"], none⟩ 0 0 0 [] [] [] 0
    ⟨.vAll, none, none, false⟩ "/work/run_e"
  exact ⟨hc.1 "idempotency" 0 false "/work/run_e/bundle.zip" (by decide), hc.2⟩

/-- Claim **C5** is false as stated for the `Containers/agentd.py` sanitizer: on
prose input where no fallback stage validates, its `return text2 or text`
returns the stage-4 strict-filter output (here a bare newline), not the
stage-2 line-drop output. -/
theorem C5_counterexample :
    is_valid_playbook yamlParse ⟨sanC_stage2 "alpha beta\ngamma"⟩ = false ∧
    is_valid_playbook yamlParse ⟨strictFilterOut (sanC_stage2 "alpha beta\ngamma")⟩ = false ∧
    sanitize_yaml_C yamlParse "alpha beta\ngamma" ≠ ⟨sanC_stage2 "alpha beta\ngamma"⟩ ∧
    sanitize_yaml_C yamlParse "alpha beta\ngamma" =
      ⟨strictFilterOut (sanC_stage2 "alpha beta\ngamma")⟩ := by
  refine ⟨by decide, by decide, by decide, by decide⟩

/-- Claim **C5** (amended): when no fallback stage produces output passing the
validity check, the `agentd.py` sanitizer returns exactly its stage-2
line-drop output, which itself fails the validity check; the
`Containers/agentd.py` variant instead returns its stage-4 strict-filter
output (its `text2 or text` fallback always picks `text2`, which ends in a
newline and is never empty), which also fails the validity check — neither
variant fabricates text that validates. -/
theorem C5_amended (parse : String → Option YVal) (text : String)
    (h0 : text.isEmpty = false)
    (h2 : is_valid_playbook parse ⟨sanA_stage2 text⟩ = false)
    (h4 : is_valid_playbook parse ⟨strictFilterOut (sanA_stage2 text)⟩ = false)
    (h5 : firstValidChunk parse (chunkSplit (strictFilterOut (sanA_stage2 text))) = none)
    (hc2 : is_valid_playbook parse ⟨sanC_stage2 text⟩ = false)
    (hc4 : is_valid_playbook parse ⟨strictFilterOut (sanC_stage2 text)⟩ = false) :
    sanitize_yaml_A parse text = ⟨sanA_stage2 text⟩ ∧
    is_valid_playbook parse (sanitize_yaml_A parse text) = false ∧
    sanitize_yaml_C parse text = ⟨strictFilterOut (sanC_stage2 text)⟩ ∧
    is_valid_playbook parse (sanitize_yaml_C parse text) = false := by
  have hA : sanitize_yaml_A parse text = ⟨sanA_stage2 text⟩ := by
    simp [sanitize_yaml_A, h2, h4, h5]
  have h6 : (strictFilterOut (sanC_stage2 text)).isEmpty = false := by
    cases hcase : strictFilterOut (sanC_stage2 text) with
    | nil =>
      exact absurd hcase (by simp [strictFilterOut, lineFilterOut])
    | cons a l => rfl
  have hC : sanitize_yaml_C parse text = ⟨strictFilterOut (sanC_stage2 text)⟩ := by
    simp [sanitize_yaml_C, h0, hc2, h6]
  refine ⟨hA, ?_, hC, ?_⟩
  · rw [hA]
    exact h2
  · rw [hC]
    exact hc4

/-- Concrete instantiation of the amended C5 law on prose input where no
stage validates. -/
theorem C5_amended_witness :
    sanitize_yaml_A yamlParse "alpha beta\ngamma" = ⟨sanA_stage2 "alpha beta\ngamma"⟩ ∧
    is_valid_playbook yamlParse (sanitize_yaml_A yamlParse "alpha beta\ngamma") = false ∧
    sanitize_yaml_C yamlParse "alpha beta\ngamma" =
      ⟨strictFilterOut (sanC_stage2 "alpha beta\ngamma")⟩ ∧
    is_valid_playbook yamlParse (sanitize_yaml_C yamlParse "alpha beta\ngamma") = false :=
  C5_amended yamlParse "alpha beta\ngamma" (by decide) (by decide) (by decide)
    (by decide) (by decide) (by decide)

/-- Claim **C6** is false as stated: this input already parses as a two-play
playbook (each play carrying a recognised key), but since it contains no
`---` marker, sanitizer step 1 truncates it at its first `- name:` line,
and the (still valid) output parses to a one-play document — the first play
is dropped, so the parse is not equivalent. -/
theorem C6_counterexample :
    is_valid_playbook yamlParse
      "- hosts: all\n  tasks: []\n- name: second\n  hosts: h2\n" = true ∧
    yamlParse (sanitize_yaml_A yamlParse
      "- hosts: all\n  tasks: []\n- name: second\n  hosts: h2\n") ≠
      yamlParse "- hosts: all\n  tasks: []\n- name: second\n  hosts: h2\n" := by
  constructor
  · rfl
  · intro h
    have h2 := congrArg topSeqLen h
    rw [show topSeqLen (yamlParse (sanitize_yaml_A yamlParse
      "- hosts: all\n  tasks: []\n- name: second\n  hosts: h2\n")) = 1 from rfl] at h2
    rw [show topSeqLen (yamlParse
      "- hosts: all\n  tasks: []\n- name: second\n  hosts: h2\n") = 2 from rfl] at h2
    exact absurd h2 (by decide)

/-- Claim **C6** (amended): round-trip stability holds for already-valid input on
which the sanitizer's destructive stages are inert — no fence marker, the
stripped text begins with the `---` document marker (so step-1 truncation
keeps everything), no line matches a commentary-drop pattern, and the text
is in line-normal form.  Then the sanitizer returns the stripped input plus
a newline, and (the YAML loader being insensitive to that re-normalisation,
the `hparse` hypothesis) its output parses to the same structure as the
input. -/
theorem C6_amended (parse : String → Option YVal) (text : String)
    (hb : containsSub "```" text = false)
    (hmark : prefixMatch charEqB "---".data (pyStripL text.data) = true)
    (hdrop : ∀ ln ∈ pySplitlinesL (pyStripL text.data), dropLineA ln = false)
    (hjoin : joinNL (pySplitlinesL (pyStripL text.data)) = pyStripL text.data)
    (hvalid : is_valid_playbook parse ⟨pyStripL text.data ++ ['\n']⟩ = true)
    (hparse : parse text = parse ⟨pyStripL text.data ++ ['\n']⟩) :
    sanitize_yaml_A parse text = ⟨pyStripL text.data ++ ['\n']⟩ ∧
    parse (sanitize_yaml_A parse text) = parse text ∧
    is_valid_playbook parse (sanitize_yaml_A parse text) = true := by
  have hbs : containsPat charEqB "```".data (pyStripL text.data) = false :=
    containsPat_pyStrip _ _ _ hb
  have hsub1 : sub1 (pyStripL text.data) = pyStripL text.data := sub1Go_id _ _ _ hbs
  have hsub2 : sub2 (pyStripL text.data) = pyStripL text.data := sub2Go_id _ _ hbs
  have hcont : containsPat charEqB "---".data (pyStripL text.data) = true :=
    prefixMatch_containsPat _ _ _ hmark
  have hstep1 : step1A (pyStripL text.data) = pyStripL text.data := by
    simp only [step1A, hcont, if_true]
    exact dropToPat_of_prefix _ _ hmark
  have hfilter : (pySplitlinesL (pyStripL text.data)).filter (fun ln => !dropLineA ln) =
      pySplitlinesL (pyStripL text.data) :=
    List.filter_eq_self.mpr (fun ln hln => by simp [hdrop ln hln])
  have hstage2 : sanA_stage2 text = pyStripL text.data ++ ['\n'] := by
    unfold sanA_stage2 dropFilterA lineFilterOut
    rw [hsub1, hsub2, hstep1, hfilter, hjoin, pyStripL_idem]
  have hmain : sanitize_yaml_A parse text = ⟨pyStripL text.data ++ ['\n']⟩ := by
    simp [sanitize_yaml_A, hstage2, hvalid]
  refine ⟨hmain, ?_, ?_⟩
  · rw [hmain, ← hparse]
  · rw [hmain]
    exact hvalid

/-- Concrete instantiation of the amended C6 law on an already-valid
playbook beginning with the document marker: sanitization preserves it and
its parse. -/
theorem C6_amended_witness :
    sanitize_yaml_A yamlParse "---\n- hosts: all\n  tasks: []\n" =
      ⟨pyStripL "---\n- hosts: all\n  tasks: []\n".data ++ ['\n']⟩ ∧
    yamlParse (sanitize_yaml_A yamlParse "---\n- hosts: all\n  tasks: []\n") =
      yamlParse "---\n- hosts: all\n  tasks: []\n" ∧
    is_valid_playbook yamlParse
      (sanitize_yaml_A yamlParse "---\n- hosts: all\n  tasks: []\n") = true :=
  C6_amended yamlParse "---\n- hosts: all\n  tasks: []\n" (by decide) (by decide)
    (by decide) (by decide) (by decide) (by rfl)

/-- Claim **C9** is false as stated: a fence-free input with surrounding
whitespace is returned stripped, not unchanged; and the Fence Stripper is
not idempotent on arbitrary input — a fenced block whose content carries a
stray inline fence marker survives the first pass (block extraction) but is
mangled by the second (marker removal), and the kiki-web variant's
line-oriented stripper exposes a second fence line on its second pass. -/
theorem C9_counterexample :
    containsSub "```" " a " = false ∧
    strip_fences " a " ≠ " a " ∧
    strip_fences (strip_fences "```\na``` b\nq\n```") ≠
      strip_fences "```\na``` b\nq\n```" ∧
    strip_markdown_fences (strip_markdown_fences "```\n```x\nbody") ≠
      strip_markdown_fences "```\n```x\nbody" := by
  refine ⟨by decide, by decide, by decide, by decide⟩

/-- Claim **C9** (amended): on inputs with no fence marker, each stripper acts as
`str.strip()` — a no-op only up to surrounding-whitespace removal — and on
such inputs applying the stripper twice equals applying it once (for the
strong variant the input must also carry no `~~~`, no CRLF pair and no
`yaml` language-tag token, since it additionally normalises those);
unrestricted idempotence fails (see the counterexample). -/
theorem C9_amended (text : String) (hb : containsSub "```" text = false)
    (ht : containsSub "~~~" text = false) (hcr : containsSub "\r\n" text = false)
    (hy : containsPat charEqCI "yaml".data text.data = false) :
    strip_fences text = pyStrip text ∧
    strip_fences (strip_fences text) = strip_fences text ∧
    strip_markdown_fences text = pyStrip text ∧
    strip_markdown_fences (strip_markdown_fences text) = strip_markdown_fences text ∧
    strip_fences_strong text = pyStrip text ∧
    strip_fences_strong (strip_fences_strong text) = strip_fences_strong text := by
  have hb2 : containsSub "```" (pyStrip text) = false := by
    show containsPat charEqB "```".data (pyStripL text.data) = false
    exact containsPat_pyStrip _ _ _ hb
  have ht2 : containsSub "~~~" (pyStrip text) = false := by
    show containsPat charEqB "~~~".data (pyStripL text.data) = false
    exact containsPat_pyStrip _ _ _ ht
  have hcr2 : containsSub "\r\n" (pyStrip text) = false := by
    show containsPat charEqB "\r\n".data (pyStripL text.data) = false
    exact containsPat_pyStrip _ _ _ hcr
  have hy2 : containsPat charEqCI "yaml".data (pyStrip text).data = false := by
    show containsPat charEqCI "yaml".data (pyStripL text.data) = false
    exact containsPat_pyStrip _ _ _ hy
  have e1 := strip_fences_eq_strip text hb
  have e3 := strip_markdown_fences_eq_strip text hb
  have e5 := strip_fences_strong_eq_strip text hb ht hcr hy
  refine ⟨e1, ?_, e3, ?_, e5, ?_⟩
  · rw [e1, strip_fences_eq_strip (pyStrip text) hb2, pyStrip_idem]
  · rw [e3, strip_markdown_fences_eq_strip (pyStrip text) hb2, pyStrip_idem]
  · rw [e5, strip_fences_strong_eq_strip (pyStrip text) hb2 ht2 hcr2 hy2, pyStrip_idem]

/-- Concrete instantiation of the amended C9 law on fence-free prose. -/
theorem C9_amended_witness :
    strip_fences " install nginx on webservers " =
      pyStrip " install nginx on webservers " ∧
    strip_fences (strip_fences " install nginx on webservers ") =
      strip_fences " install nginx on webservers " ∧
    strip_markdown_fences " install nginx on webservers " =
      pyStrip " install nginx on webservers " ∧
    strip_markdown_fences (strip_markdown_fences " install nginx on webservers ") =
      strip_markdown_fences " install nginx on webservers " ∧
    strip_fences_strong " install nginx on webservers " =
      pyStrip " install nginx on webservers " ∧
    strip_fences_strong (strip_fences_strong " install nginx on webservers ") =
      strip_fences_strong " install nginx on webservers " :=
  C9_amended " install nginx on webservers " (by decide) (by decide) (by decide)
    (by decide)
